import Mathlib

/-!
# tsoogle: declaration extraction, type canonicalization and ranking

A shallow embedding of `main.go`.

Conventions of the embedding.

* A Go `string` is modelled as the list of its characters (`GoString`); the
  source file is assumed to be valid UTF-8, and node spans count characters.
* A nil node handle is `none`; using it (a nil dereference), slicing outside the
  source and `log.Fatal` all abort the run, which is `none` in the result.
* The tree-sitter query engine, `sort.SliceStable` and the Levenshtein package
  are libraries outside the repository.  The distance function is a parameter
  `lev`, and where a claim is about its values it is the Levenshtein distance as
  the spec defines it; the stable sort is given by its insertion sort; the query
  engine is represented by the sequence of matches it yields.
* The trees of the scenarios are written out node by node, as the TypeScript
  grammar of tree-sitter builds them: categories, fields, spans and start points.
-/

namespace Tsoogle

/-- A Go string, as the sequence of its characters. -/
abbrev GoString := List Char

/-! ## Ranking (`ComputeDistance`, `main`) -/

/-- The type `sitter.Point`: zero-based row and column. -/
structure Point where
  Row : Nat
  Column : Nat
deriving DecidableEq, Repr

/-- The record `FunctionDeclaration`; the field `Type` is written `Type_`. -/
structure FunctionDeclaration where
  Name : GoString
  Type_ : GoString
  Position : Point
deriving DecidableEq, Repr

/-- The method `FunctionDeclaration.String`:
`fmt.Sprintf("%s:%d;  %s :: %s", filename, decl.Position.Row, decl.Name, decl.Type)`. -/
def FunctionDeclaration.String (decl : FunctionDeclaration) (filename : GoString) : GoString :=
  filename ++ ":".toList ++ (Nat.repr decl.Position.Row).toList ++ ";  ".toList
    ++ decl.Name ++ " :: ".toList ++ decl.Type_

/-- The function `ComputeDistance`: the library distance `lev` between the declaration's
`Type` and the query. -/
def ComputeDistance (lev : GoString → GoString → Int) (declaration : FunctionDeclaration)
    (query : GoString) : Int :=
  lev declaration.Type_ query

/-- The inner loop of the library's insertion sort: the element `x` at index `j` is swapped
with its left neighbour while `less x neighbour` holds.  The already sorted prefix is passed
nearest neighbour first, and returned in the same orientation with `x` in place. -/
def sinkLeft {α : Type} (less : α → α → Bool) (x : α) : List α → List α
  | [] => [x]
  | y :: ys => if less x y then y :: sinkLeft less x ys else x :: y :: ys

/-- The outer loop of the insertion sort: `done` is the processed prefix, nearest neighbour
first; each further element is sunk into it. -/
def insertionLoop {α : Type} (less : α → α → Bool) : List α → List α → List α
  | done, [] => done.reverse
  | done, x :: rest => insertionLoop less (sinkLeft less x done) rest

/-- The library call `sort.SliceStable(x, less)`.  The library sorts a slice of up to twenty
elements by this insertion sort alone and a longer one by insertion-sorted blocks that it
merges in place; the model applies the insertion sort to the whole slice.  Both are stable
sorts, and the sequence that is sorted by a key and stable is unique (`SliceStable_unique`). -/
def SliceStable {α : Type} (less : α → α → Bool) (x : List α) : List α :=
  insertionLoop less [] x

/-- The sort call of `main`: `declarations` after
`sort.SliceStable(declarations, func(i, j) { return d1 < d2 })`. -/
def rank (lev : GoString → GoString → Int) (declarations : List FunctionDeclaration)
    (query : GoString) : List FunctionDeclaration :=
  SliceStable
    (fun di dj => decide (ComputeDistance lev di query < ComputeDistance lev dj query))
    declarations

/-- The print loop of `main`: `for i, d := range declarations`, leaving at `i >= 10`; the
result is the sequence of lines written. -/
def printLoop (file : GoString) : Nat → List FunctionDeclaration → List GoString
  | _, [] => []
  | i, d :: ds => if i ≥ 10 then [] else d.String file :: printLoop file (i + 1) ds

/-- The part of `main` after `ParseFile`: rank the declarations, print the first ones. -/
def mainOutput (lev : GoString → GoString → Int) (file : GoString)
    (declarations : List FunctionDeclaration) (query : GoString) : List GoString :=
  printLoop file 0 (rank lev declarations query)

/-! ## Text normalization (`NormalizeParam`, `NormalizeContent`) -/

/-- The predicate `unicode.IsSpace`: the Latin-1 white space and the code points of the
Unicode property White_Space. -/
def isSpace (c : Char) : Bool :=
  let n := c.toNat
  (0x09 ≤ n && n ≤ 0x0D) || n == 0x20 || n == 0x85 || n == 0xA0 || n == 0x1680
    || (0x2000 ≤ n && n ≤ 0x200A) || n == 0x2028 || n == 0x2029 || n == 0x202F
    || n == 0x205F || n == 0x3000

/-- The call `strings.TrimSpace(s)`: leading and trailing white space removed. -/
def TrimSpace (s : GoString) : GoString :=
  ((s.dropWhile isSpace).reverse.dropWhile isSpace).reverse

/-- The call `strings.Replace(s, ":", "", 1)`: the first colon of `s`, wherever it stands, is
removed; a string without colon is returned unchanged. -/
def ReplaceFirstColon : GoString → GoString
  | [] => []
  | c :: cs => if c = ':' then cs else c :: ReplaceFirstColon cs

/-- The call `strings.ReplaceAll(s, "\n", "")`: every newline removed. -/
def ReplaceAllNewlines (s : GoString) : GoString :=
  s.filter (fun c => c != '\n')

/-- The call `reg.ReplaceAllString(s, " ")` for the expression `[ ]{2,}`: scanning from the
left, every maximal run of two or more spaces is replaced by one space.  `inRun` tells that
the previous character was a space, whose run has already produced its one space. -/
def ReplaceSpaceRuns : Bool → GoString → GoString
  | _, [] => []
  | inRun, c :: cs =>
    if c = ' ' then
      if inRun then ReplaceSpaceRuns true cs else ' ' :: ReplaceSpaceRuns true cs
    else c :: ReplaceSpaceRuns false cs

/-- The function `NormalizeParam`. -/
def NormalizeParam (param : GoString) : GoString :=
  TrimSpace (ReplaceFirstColon param)

/-- The function `NormalizeContent`; the expression `[ ]{2,}` always compiles, so the
`log.Fatal` branch is never taken. -/
def NormalizeContent (content : GoString) : GoString :=
  let trimNewlines := ReplaceAllNewlines content
  ReplaceSpaceRuns false trimNewlines

/-- The call `strings.Join(elems, sep)`. -/
def Join (elems : List GoString) (sep : GoString) : GoString :=
  List.intercalate sep elems

/-! ## Syntax tree nodes (`sitter.Node`) -/

/-- A node of the syntax tree as the program observes it: its category (`Type()`), whether
it is named (`IsNamed()`), the field of its parent it fills (for `ChildByFieldName`), its
span in the source (`StartByte()`, `EndByte()`), its start point and its children. -/
inductive Node where
  | mk (kind : String) (named : Bool) (field : Option String) (startByte endByte : Nat)
      (startPoint : Point) (children : List Node) : Node

/-- The method `Type()`. -/
def Node.Type_ : Node → String
  | .mk kind _ _ _ _ _ _ => kind

/-- The method `IsNamed()`. -/
def Node.IsNamed : Node → Bool
  | .mk _ named _ _ _ _ _ => named

/-- The field of the parent that the node fills, if any. -/
def Node.field : Node → Option String
  | .mk _ _ field _ _ _ _ => field

/-- The method `StartByte()`. -/
def Node.StartByte : Node → Nat
  | .mk _ _ _ startByte _ _ _ => startByte

/-- The method `EndByte()`. -/
def Node.EndByte : Node → Nat
  | .mk _ _ _ _ endByte _ _ => endByte

/-- The method `StartPoint()`. -/
def Node.StartPoint : Node → Point
  | .mk _ _ _ _ _ startPoint _ => startPoint

/-- All children of the node, named or not, in order. -/
def Node.children : Node → List Node
  | .mk _ _ _ _ _ _ children => children

/-- The method `ChildCount()`. -/
def Node.ChildCount (n : Node) : Nat :=
  n.children.length

/-- The method `Child(i)`; nil when there is no such child. -/
def Node.Child (n : Node) (i : Nat) : Option Node :=
  n.children.get? i

/-- The method `NamedChild(i)`: the `i`-th of the named children; nil when there is none. -/
def Node.NamedChild (n : Node) (i : Nat) : Option Node :=
  (n.children.filter Node.IsNamed).get? i

/-- The method `ChildByFieldName(name)`: the first child filling the field; nil when the
field is absent. -/
def Node.ChildByFieldName (n : Node) (name : String) : Option Node :=
  n.children.find? (fun c => c.field == some name)

/-- The method `Content(input)`: `string(input[n.StartByte():n.EndByte()])`; a slice
expression outside the input aborts. -/
def Node.Content (n : Node) (input : GoString) : Option GoString :=
  if n.StartByte ≤ n.EndByte ∧ n.EndByte ≤ input.length then
    some ((input.drop n.StartByte).take (n.EndByte - n.StartByte))
  else none

/-! ## Type canonicalization (`ParseTypeNode`, `ParseParamsNode`)

The functions recurse into children of the node at hand; the lemmas that come first bound
the size of a child by the size of its parent, which is the measure of the recursion. -/

theorem Node.sizeOf_children_lt (n : Node) : sizeOf n.children < sizeOf n := by
  cases n
  simp only [Node.children, Node.mk.sizeOf_spec]
  omega

theorem Node.sizeOf_lt_of_mem {c n : Node} (h : c ∈ n.children) : sizeOf c < sizeOf n :=
  Nat.lt_trans (List.sizeOf_lt_of_mem h) n.sizeOf_children_lt

theorem Node.sizeOf_Child_lt {c n : Node} {i : Nat} (h : n.Child i = some c) :
    sizeOf c < sizeOf n :=
  Node.sizeOf_lt_of_mem (List.get?_mem h)

theorem Node.sizeOf_NamedChild_lt {c n : Node} {i : Nat} (h : n.NamedChild i = some c) :
    sizeOf c < sizeOf n :=
  Node.sizeOf_lt_of_mem (List.mem_of_mem_filter (List.get?_mem h))

theorem Node.sizeOf_ChildByFieldName_lt {c n : Node} {name : String}
    (h : n.ChildByFieldName name = some c) : sizeOf c < sizeOf n :=
  Node.sizeOf_lt_of_mem (List.mem_of_find?_eq_some h)

/-- The opening of `ParseTypeNode`: a `type_annotation` node is replaced by its second
child (`node = node.Child(1)`), any other node is kept. -/
def unwrapAnnotated (node : Node) : Option Node :=
  if node.Type_ = "type_annotation" then node.Child 1 else some node

theorem sizeOf_unwrapAnnotated_le {node inner : Node} (h : unwrapAnnotated node = some inner) :
    sizeOf inner ≤ sizeOf node := by
  unfold unwrapAnnotated at h
  split at h
  · exact Nat.le_of_lt (Node.sizeOf_Child_lt h)
  · cases h
    exact Nat.le_refl _

/-- The categories of the second `case` of the `switch` in `ParseTypeNode`. -/
def simpleCategories : List String :=
  ["type_identifier", "predefined_type", "type_annotation", "union_type",
    "nested_type_identifier", "array_type", "object_type", "intersection_type"]

mutual

/-- The function `ParseFunctionTypeNode`. -/
def ParseFunctionTypeNode (node : Node) (sourceCode : GoString) : Option GoString :=
  match _hp : node.ChildByFieldName "parameters", _hr : node.ChildByFieldName "return_type" with
  | some params, some returnType =>
    match ParseParamsNode params sourceCode, ParseTypeNode returnType sourceCode with
    | some strParams, some strReturnType =>
      some ("(".toList ++ strParams ++ ") -> ".toList ++ strReturnType)
    | _, _ => none
  | _, _ => none
termination_by (sizeOf node, 0)
decreasing_by
  · exact Prod.Lex.left _ _ (Node.sizeOf_ChildByFieldName_lt _hp)
  · exact Prod.Lex.left _ _ (Node.sizeOf_ChildByFieldName_lt _hr)

/-- The function `ParseTypeNode`. -/
def ParseTypeNode (node : Node) (sourceCode : GoString) : Option GoString :=
  match _hu : unwrapAnnotated node with
  | none => none
  | some node =>
    let paramStringType := node.Type_
    if paramStringType = "function_type" ∨ paramStringType = "arrow_function" then
      ParseFunctionTypeNode node sourceCode
    else if paramStringType ∈ simpleCategories then
      match node.Content sourceCode with
      | some content => some (NormalizeParam (NormalizeContent content))
      | none => none
    else if paramStringType = "readonly_type" then
      match _hc : node.NamedChild 0 with
      | some inner => ParseTypeNode inner sourceCode
      | none => none
    else if paramStringType = "generic_type" then
      match node.ChildByFieldName "name", _ht : node.ChildByFieldName "type_arguments" with
      | some nameNode, some typeArgs =>
        match nameNode.Content sourceCode, ParseTypeArgs typeArgs.children sourceCode with
        | some genericName, some strArgs =>
          some (genericName ++ "<".toList ++ Join strArgs ", ".toList ++ ">".toList)
        | _, _ => none
      | _, _ => none
    else
      match node.Content sourceCode with
      | some content => some ("UNKNOWN: ".toList ++ NormalizeContent content)
      | none => none
termination_by (sizeOf node, 1)
decreasing_by
  · rcases Nat.lt_or_eq_of_le (sizeOf_unwrapAnnotated_le _hu) with h | h
    · exact Prod.Lex.left _ _ h
    · rw [h]
      exact Prod.Lex.right _ (by decide)
  · exact Prod.Lex.left _ _
      (Nat.lt_of_lt_of_le (Node.sizeOf_NamedChild_lt _hc) (sizeOf_unwrapAnnotated_le _hu))
  · exact Prod.Lex.left _ _
      (Nat.lt_of_lt_of_le
        (Nat.lt_trans typeArgs.sizeOf_children_lt (Node.sizeOf_ChildByFieldName_lt _ht))
        (sizeOf_unwrapAnnotated_le _hu))

/-- The loop of the `generic_type` case: the renderings of the named children of
`type_arguments`, in order. -/
def ParseTypeArgs (args : List Node) (sourceCode : GoString) : Option (List GoString) :=
  match args with
  | [] => some []
  | arg :: rest =>
    if arg.IsNamed then
      match ParseTypeNode arg sourceCode, ParseTypeArgs rest sourceCode with
      | some strArg, some strArgs => some (strArg :: strArgs)
      | _, _ => none
    else ParseTypeArgs rest sourceCode
termination_by (sizeOf args, 0)
decreasing_by
  all_goals simp_wf
  · exact Prod.Lex.left _ _ (by omega)
  · exact Prod.Lex.left _ _ (by omega)
  · exact Prod.Lex.left _ _ (by omega)

/-- The function `ParseParamsNode`. -/
def ParseParamsNode (node : Node) (sourceCode : GoString) : Option GoString :=
  match ParseParams node.children sourceCode with
  | some strParams => some (Join strParams ", ".toList)
  | none => none
termination_by (sizeOf node, 0)
decreasing_by
  exact Prod.Lex.left _ _ node.sizeOf_children_lt

/-- The loop of `ParseParamsNode` over the children of the parameter list. -/
def ParseParams (children : List Node) (sourceCode : GoString) : Option (List GoString) :=
  match children with
  | [] => some []
  | child :: rest =>
    if child.Type_ = "required_parameter" then
      match _hc : child.ChildByFieldName "type" with
      | some paramType =>
        match ParseTypeNode paramType sourceCode, ParseParams rest sourceCode with
        | some strParam, some strParams => some (strParam :: strParams)
        | _, _ => none
      | none => none
    else if child.Type_ = "optional_parameter" then
      match _hc : child.Child 2 with
      | some paramType =>
        match ParseTypeNode paramType sourceCode, ParseParams rest sourceCode with
        | some strParam, some strParams => some (strParam :: strParams)
        | _, _ => none
      | none => none
    else ParseParams rest sourceCode
termination_by (sizeOf children, 0)
decreasing_by
  all_goals simp_wf
  · exact Prod.Lex.left _ _ (by have := Node.sizeOf_ChildByFieldName_lt _hc; omega)
  · exact Prod.Lex.left _ _ (by omega)
  · exact Prod.Lex.left _ _ (by have := Node.sizeOf_Child_lt _hc; omega)
  · exact Prod.Lex.left _ _ (by omega)
  · exact Prod.Lex.left _ _ (by omega)

end

/-! ## Declaration extraction (`ParseFunctionNode`, `ParseFile`) -/

/-- The function `ParseFunctionNode`.  The handle of a node also reaches its ancestors
(`Parent()`): `ancestors` lists them, the parent first. -/
def ParseFunctionNode (node : Node) (ancestors : List Node) (sourceCode : GoString) :
    Option FunctionDeclaration :=
  if node.Type_ = "function_declaration" ∨ node.Type_ = "function_signature" then
    match (node.ChildByFieldName "name").bind (fun n => n.Content sourceCode),
      (node.ChildByFieldName "parameters").bind (fun n => ParseParamsNode n sourceCode),
      (node.ChildByFieldName "return_type").bind (fun n => ParseTypeNode n sourceCode) with
    | some name, some params, some returnType =>
      some { Name := name
             Type_ := "(".toList ++ params ++ ") -> ".toList ++ returnType
             Position := node.StartPoint }
    | _, _, _ => none
  else if node.Type_ = "variable_declarator" then
    let vType := node.ChildByFieldName "type"
    let vValue := node.ChildByFieldName "value"
    let fNode : Option Node :=
      if vType.isSome then vType else if vValue.isSome then vValue else none
    match (node.ChildByFieldName "name").bind (fun n => n.Content sourceCode),
      fNode.bind (fun n => ParseTypeNode n sourceCode) with
    | some name, some type => some { Name := name, Type_ := type, Position := node.StartPoint }
    | _, _ => none
  else if node.Type_ = "method_definition" ∨ node.Type_ = "method_signature" then
    match ((ancestors.get? 1).bind (fun g => g.ChildByFieldName "name")).bind
        (fun n => n.Content sourceCode),
      (node.ChildByFieldName "name").bind (fun n => n.Content sourceCode),
      (node.ChildByFieldName "parameters").bind (fun n => ParseParamsNode n sourceCode),
      (node.ChildByFieldName "return_type").bind (fun n => ParseTypeNode n sourceCode) with
    | some className, some name, some params, some returnType =>
      some { Name := className ++ ".".toList ++ name
             Type_ := "(".toList ++ params ++ ") -> ".toList ++ returnType
             Position := node.StartPoint }
    | _, _, _, _ => none
  else none

/-- A capture of a query match (`sitter.QueryCapture`): the captured node, with its
ancestors. -/
structure QueryCapture where
  Node : Tsoogle.Node
  ancestors : List Tsoogle.Node

/-- A match of the query (`sitter.QueryMatch`). -/
structure QueryMatch where
  Captures : List QueryCapture

/-- The loop of `ParseFile` over the matches that `cursor.NextMatch()` yields, in order;
`declarations` is the slice built so far.  The query has no predicate, so
`FilterPredicates` returns each match as it is. -/
def ParseFileLoop (sourceCode : GoString) :
    List QueryMatch → List FunctionDeclaration → Option (List FunctionDeclaration)
  | [], declarations => some declarations
  | m :: ms, declarations =>
    match m.Captures with
    | [] => some []
    | capture :: _ =>
      let node := capture.Node
      if node.Type_ = "method_definition" ∨ node.Type_ = "method_signature"
          ∨ node.Type_ = "function_declaration" ∨ node.Type_ = "function_signature"
          ∨ node.Type_ = "variable_declarator" then
        match ParseFunctionNode node capture.ancestors sourceCode with
        | some declaration => ParseFileLoop sourceCode ms (declarations ++ [declaration])
        | none => none
      else ParseFileLoop sourceCode ms declarations

/-- The function `ParseFile`, from `cursor.Exec` on: `sourceCode` is the content of the
file and `queryMatches` the matches of the query on its tree. -/
def ParseFile (sourceCode : GoString) (queryMatches : List QueryMatch) :
    Option (List FunctionDeclaration) :=
  ParseFileLoop sourceCode queryMatches []

/-! ## The parts of the canonicalizer that the claims name -/

/-- The categories that the `switch` of `ParseTypeNode` lists; a node of any other category
takes the `default` branch. -/
def recognizedCategories : List String :=
  ["function_type", "arrow_function"] ++ simpleCategories ++ ["readonly_type", "generic_type"]

/-- The test of the `switch` in `ParseParamsNode`: the child is a `required_parameter` or an
`optional_parameter`. -/
def isParameter (child : Node) : Bool :=
  child.Type_ == "required_parameter" || child.Type_ == "optional_parameter"

/-- The string that one parameter child adds to `strParams` in `ParseParamsNode`: the
rendering of the `type` field of a `required_parameter`, of the third child of an
`optional_parameter`. -/
def ParseParam (child : Node) (sourceCode : GoString) : Option GoString :=
  if child.Type_ = "required_parameter" then
    (child.ChildByFieldName "type").bind fun paramType => ParseTypeNode paramType sourceCode
  else
    (child.Child 2).bind fun paramType => ParseTypeNode paramType sourceCode

/-! ## The sources of the scenarios and their trees -/

/-- The source `function add(a: number, b: number): number { return a+b }`. -/
def addSource : GoString :=
  "function add(a: number, b: number): number \x7b return a+b \x7d".toList

/-- The `name` field of `addNode`. -/
def addName : Node :=
  .mk "identifier" true (some "name") 9 12 ⟨0, 9⟩ []

/-- The `parameters` field of `addNode`. -/
def addParams : Node :=
  .mk "formal_parameters" true (some "parameters") 12 34 ⟨0, 12⟩
   [.mk "(" false none 12 13 ⟨0, 12⟩ [],
    .mk "required_parameter" true none 13 22 ⟨0, 13⟩
     [.mk "identifier" true (some "pattern") 13 14 ⟨0, 13⟩ [],
      .mk "type_annotation" true (some "type") 14 22 ⟨0, 14⟩
       [.mk ":" false none 14 15 ⟨0, 14⟩ [],
        .mk "predefined_type" true none 16 22 ⟨0, 16⟩
         [.mk "number" false none 16 22 ⟨0, 16⟩ []]]],
    .mk "," false none 22 23 ⟨0, 22⟩ [],
    .mk "required_parameter" true none 24 33 ⟨0, 24⟩
     [.mk "identifier" true (some "pattern") 24 25 ⟨0, 24⟩ [],
      .mk "type_annotation" true (some "type") 25 33 ⟨0, 25⟩
       [.mk ":" false none 25 26 ⟨0, 25⟩ [],
        .mk "predefined_type" true none 27 33 ⟨0, 27⟩
         [.mk "number" false none 27 33 ⟨0, 27⟩ []]]],
    .mk ")" false none 33 34 ⟨0, 33⟩ []]

/-- The `return_type` field of `addNode`. -/
def addReturn : Node :=
  .mk "type_annotation" true (some "return_type") 34 42 ⟨0, 34⟩
   [.mk ":" false none 34 35 ⟨0, 34⟩ [],
    .mk "predefined_type" true none 36 42 ⟨0, 36⟩
     [.mk "number" false none 36 42 ⟨0, 36⟩ []]]

/-- The `function_declaration` node of `addSource`. -/
def addNode : Node :=
  .mk "function_declaration" true none 0 57 ⟨0, 0⟩
   [.mk "function" false none 0 8 ⟨0, 0⟩ [],
    addName,
    addParams,
    addReturn,
    .mk "statement_block" true (some "body") 43 57 ⟨0, 43⟩
     [.mk "\x7b" false none 43 44 ⟨0, 43⟩ [],
      .mk "return_statement" true none 45 55 ⟨0, 45⟩
       [.mk "return" false none 45 51 ⟨0, 45⟩ [],
        .mk "binary_expression" true none 52 55 ⟨0, 52⟩
         [.mk "identifier" true (some "left") 52 53 ⟨0, 52⟩ [],
          .mk "+" false (some "operator") 53 54 ⟨0, 53⟩ [],
          .mk "identifier" true (some "right") 54 55 ⟨0, 54⟩ []]],
      .mk "\x7d" false none 56 57 ⟨0, 56⟩ []]]

/-- The root of the tree of `addSource`. -/
def addProgram : Node :=
  .mk "program" true none 0 57 ⟨0, 0⟩
   [addNode]

/-- The source `class Foo { bar(x: string): void {} }`. -/
def fooSource : GoString :=
  "class Foo \x7b bar(x: string): void \x7b\x7d \x7d".toList

/-- The `name` field of `fooMethod`. -/
def fooName : Node :=
  .mk "property_identifier" true (some "name") 12 15 ⟨0, 12⟩ []

/-- The `parameters` field of `fooMethod`. -/
def fooParams : Node :=
  .mk "formal_parameters" true (some "parameters") 15 26 ⟨0, 15⟩
   [.mk "(" false none 15 16 ⟨0, 15⟩ [],
    .mk "required_parameter" true none 16 25 ⟨0, 16⟩
     [.mk "identifier" true (some "pattern") 16 17 ⟨0, 16⟩ [],
      .mk "type_annotation" true (some "type") 17 25 ⟨0, 17⟩
       [.mk ":" false none 17 18 ⟨0, 17⟩ [],
        .mk "predefined_type" true none 19 25 ⟨0, 19⟩
         [.mk "string" false none 19 25 ⟨0, 19⟩ []]]],
    .mk ")" false none 25 26 ⟨0, 25⟩ []]

/-- The `return_type` field of `fooMethod`. -/
def fooReturn : Node :=
  .mk "type_annotation" true (some "return_type") 26 32 ⟨0, 26⟩
   [.mk ":" false none 26 27 ⟨0, 26⟩ [],
    .mk "predefined_type" true none 28 32 ⟨0, 28⟩
     [.mk "void" false none 28 32 ⟨0, 28⟩ []]]

/-- The `method_definition` node of `fooSource`. -/
def fooMethod : Node :=
  .mk "method_definition" true none 12 35 ⟨0, 12⟩
   [fooName,
    fooParams,
    fooReturn,
    .mk "statement_block" true (some "body") 33 35 ⟨0, 33⟩
     [.mk "\x7b" false none 33 34 ⟨0, 33⟩ [],
      .mk "\x7d" false none 34 35 ⟨0, 34⟩ []]]

/-- The `class_body` node of `fooSource`, the parent of `fooMethod`. -/
def fooClassBody : Node :=
  .mk "class_body" true (some "body") 10 37 ⟨0, 10⟩
   [.mk "\x7b" false none 10 11 ⟨0, 10⟩ [],
    fooMethod,
    .mk "\x7d" false none 36 37 ⟨0, 36⟩ []]

/-- The `name` field of `fooClass`. -/
def fooClassName : Node :=
  .mk "type_identifier" true (some "name") 6 9 ⟨0, 6⟩ []

/-- The `class_declaration` node of `fooSource`, the parent of `fooClassBody`. -/
def fooClass : Node :=
  .mk "class_declaration" true none 0 37 ⟨0, 0⟩
   [.mk "class" false none 0 5 ⟨0, 0⟩ [],
    fooClassName,
    fooClassBody]

/-- The root of the tree of `fooSource`. -/
def fooProgram : Node :=
  .mk "program" true none 0 37 ⟨0, 0⟩
   [fooClass]

/-- The source `const f: (x: number) => string = x => String(x);`. -/
def fSource : GoString :=
  "const f: (x: number) => string = x => String(x);".toList

/-- The `name` field of `fDeclarator`. -/
def fName : Node :=
  .mk "identifier" true (some "name") 6 7 ⟨0, 6⟩ []

/-- The `type` field of `fDeclarator`: the annotation `: (x: number) => string`. -/
def fType : Node :=
  .mk "type_annotation" true (some "type") 7 30 ⟨0, 7⟩
   [.mk ":" false none 7 8 ⟨0, 7⟩ [],
    .mk "function_type" true none 9 30 ⟨0, 9⟩
     [.mk "formal_parameters" true (some "parameters") 9 20 ⟨0, 9⟩
       [.mk "(" false none 9 10 ⟨0, 9⟩ [],
        .mk "required_parameter" true none 10 19 ⟨0, 10⟩
         [.mk "identifier" true (some "pattern") 10 11 ⟨0, 10⟩ [],
          .mk "type_annotation" true (some "type") 11 19 ⟨0, 11⟩
           [.mk ":" false none 11 12 ⟨0, 11⟩ [],
            .mk "predefined_type" true none 13 19 ⟨0, 13⟩
             [.mk "number" false none 13 19 ⟨0, 13⟩ []]]],
        .mk ")" false none 19 20 ⟨0, 19⟩ []],
      .mk "=>" false none 21 23 ⟨0, 21⟩ [],
      .mk "predefined_type" true (some "return_type") 24 30 ⟨0, 24⟩
       [.mk "string" false none 24 30 ⟨0, 24⟩ []]]]

/-- The `value` field of `fDeclarator`: the arrow function `x => String(x)`. -/
def fValue : Node :=
  .mk "arrow_function" true (some "value") 33 47 ⟨0, 33⟩
   [.mk "identifier" true (some "parameter") 33 34 ⟨0, 33⟩ [],
    .mk "=>" false none 35 37 ⟨0, 35⟩ [],
    .mk "call_expression" true (some "body") 38 47 ⟨0, 38⟩
     [.mk "identifier" true (some "function") 38 44 ⟨0, 38⟩ [],
      .mk "arguments" true (some "arguments") 44 47 ⟨0, 44⟩
       [.mk "(" false none 44 45 ⟨0, 44⟩ [],
        .mk "identifier" true none 45 46 ⟨0, 45⟩ [],
        .mk ")" false none 46 47 ⟨0, 46⟩ []]]]

/-- The `variable_declarator` node of `fSource`. -/
def fDeclarator : Node :=
  .mk "variable_declarator" true none 6 47 ⟨0, 6⟩
   [fName,
    fType,
    .mk "=" false none 31 32 ⟨0, 31⟩ [],
    fValue]

/-- The `lexical_declaration` node of `fSource`, the parent of `fDeclarator`. -/
def fLexical : Node :=
  .mk "lexical_declaration" true none 0 48 ⟨0, 0⟩
   [.mk "const" false none 0 5 ⟨0, 0⟩ [],
    fDeclarator,
    .mk ";" false none 47 48 ⟨0, 47⟩ []]

/-- The root of the tree of `fSource`. -/
def fProgram : Node :=
  .mk "program" true none 0 48 ⟨0, 0⟩
   [fLexical]

/-- The source `function g(p: { a : number }): void {}`. -/
def spacedSource : GoString :=
  "function g(p: \x7b a : number \x7d): void \x7b\x7d".toList

/-- The `object_type` node of `spacedSource`: the type `{ a : number }` of the parameter `p`. -/
def spacedObjectType : Node :=
  .mk "object_type" true none 14 28 ⟨0, 14⟩
   [.mk "\x7b" false none 14 15 ⟨0, 14⟩ [],
    .mk "property_signature" true none 16 26 ⟨0, 16⟩
     [.mk "property_identifier" true (some "name") 16 17 ⟨0, 16⟩ [],
      .mk "type_annotation" true (some "type") 18 26 ⟨0, 18⟩
       [.mk ":" false none 18 19 ⟨0, 18⟩ [],
        .mk "predefined_type" true none 20 26 ⟨0, 20⟩
         [.mk "number" false none 20 26 ⟨0, 20⟩ []]]],
    .mk "\x7d" false none 27 28 ⟨0, 27⟩ []]

/-- The `name` field of `spacedFunction`. -/
def spacedName : Node :=
  .mk "identifier" true (some "name") 9 10 ⟨0, 9⟩ []

/-- The `parameters` field of `spacedFunction`. -/
def spacedParams : Node :=
  .mk "formal_parameters" true (some "parameters") 10 29 ⟨0, 10⟩
   [.mk "(" false none 10 11 ⟨0, 10⟩ [],
    .mk "required_parameter" true none 11 28 ⟨0, 11⟩
     [.mk "identifier" true (some "pattern") 11 12 ⟨0, 11⟩ [],
      .mk "type_annotation" true (some "type") 12 28 ⟨0, 12⟩
       [.mk ":" false none 12 13 ⟨0, 12⟩ [],
        spacedObjectType]],
    .mk ")" false none 28 29 ⟨0, 28⟩ []]

/-- The `return_type` field of `spacedFunction`. -/
def spacedReturn : Node :=
  .mk "type_annotation" true (some "return_type") 29 35 ⟨0, 29⟩
   [.mk ":" false none 29 30 ⟨0, 29⟩ [],
    .mk "predefined_type" true none 31 35 ⟨0, 31⟩
     [.mk "void" false none 31 35 ⟨0, 31⟩ []]]

/-- The `function_declaration` node of `spacedSource`. -/
def spacedFunction : Node :=
  .mk "function_declaration" true none 0 38 ⟨0, 0⟩
   [.mk "function" false none 0 8 ⟨0, 0⟩ [],
    spacedName,
    spacedParams,
    spacedReturn,
    .mk "statement_block" true (some "body") 36 38 ⟨0, 36⟩
     [.mk "\x7b" false none 36 37 ⟨0, 36⟩ [],
      .mk "\x7d" false none 37 38 ⟨0, 37⟩ []]]

/-- The source `function h(p: { a: number }): void {}`. -/
def plainSource : GoString :=
  "function h(p: \x7b a: number \x7d): void \x7b\x7d".toList

/-- The `object_type` node of `plainSource`: the type `{ a: number }` of the parameter `p`. -/
def plainObjectType : Node :=
  .mk "object_type" true none 14 27 ⟨0, 14⟩
   [.mk "\x7b" false none 14 15 ⟨0, 14⟩ [],
    .mk "property_signature" true none 16 25 ⟨0, 16⟩
     [.mk "property_identifier" true (some "name") 16 17 ⟨0, 16⟩ [],
      .mk "type_annotation" true (some "type") 17 25 ⟨0, 17⟩
       [.mk ":" false none 17 18 ⟨0, 17⟩ [],
        .mk "predefined_type" true none 19 25 ⟨0, 19⟩
         [.mk "number" false none 19 25 ⟨0, 19⟩ []]]],
    .mk "\x7d" false none 26 27 ⟨0, 26⟩ []]

/-- The `name` field of `plainFunction`. -/
def plainName : Node :=
  .mk "identifier" true (some "name") 9 10 ⟨0, 9⟩ []

/-- The `parameters` field of `plainFunction`. -/
def plainParams : Node :=
  .mk "formal_parameters" true (some "parameters") 10 28 ⟨0, 10⟩
   [.mk "(" false none 10 11 ⟨0, 10⟩ [],
    .mk "required_parameter" true none 11 27 ⟨0, 11⟩
     [.mk "identifier" true (some "pattern") 11 12 ⟨0, 11⟩ [],
      .mk "type_annotation" true (some "type") 12 27 ⟨0, 12⟩
       [.mk ":" false none 12 13 ⟨0, 12⟩ [],
        plainObjectType]],
    .mk ")" false none 27 28 ⟨0, 27⟩ []]

/-- The `return_type` field of `plainFunction`. -/
def plainReturn : Node :=
  .mk "type_annotation" true (some "return_type") 28 34 ⟨0, 28⟩
   [.mk ":" false none 28 29 ⟨0, 28⟩ [],
    .mk "predefined_type" true none 30 34 ⟨0, 30⟩
     [.mk "void" false none 30 34 ⟨0, 30⟩ []]]

/-- The `function_declaration` node of `plainSource`. -/
def plainFunction : Node :=
  .mk "function_declaration" true none 0 37 ⟨0, 0⟩
   [.mk "function" false none 0 8 ⟨0, 0⟩ [],
    plainName,
    plainParams,
    plainReturn,
    .mk "statement_block" true (some "body") 35 37 ⟨0, 35⟩
     [.mk "\x7b" false none 35 36 ⟨0, 35⟩ [],
      .mk "\x7d" false none 36 37 ⟨0, 36⟩ []]]

/-- The declaration that `fSource` holds: `f` with the type `(number) -> string`, at the
start point of the declarator. -/
def fDeclaration : FunctionDeclaration :=
  { Name := "f".toList, Type_ := "(number) -> string".toList, Position := ⟨0, 6⟩ }

/-- The matches of the query of `ParseFile` on the tree of `fSource`: the declarator fits the
third pattern (a `type` field that annotates a function type) and the fourth (a `value`
field that is an arrow function); each of the two matches captures it as `@f`. -/
def fMatches : List QueryMatch :=
  [{ Captures := [{ Node := fDeclarator, ancestors := [fLexical, fProgram] }] },
   { Captures := [{ Node := fDeclarator, ancestors := [fLexical, fProgram] }] }]

/-- The source `const k = (x: number): string => String(x);`. -/
def kSource : GoString :=
  "const k = (x: number): string => String(x);".toList

/-- The `name` field of `kDeclarator`. -/
def kName : Node :=
  .mk "identifier" true (some "name") 6 7 ⟨0, 6⟩ []

/-- The `value` field of `kDeclarator`: the arrow function, with its own parameter list and
return type. -/
def kValue : Node :=
  .mk "arrow_function" true (some "value") 10 42 ⟨0, 10⟩
   [.mk "formal_parameters" true (some "parameters") 10 21 ⟨0, 10⟩
     [.mk "(" false none 10 11 ⟨0, 10⟩ [],
      .mk "required_parameter" true none 11 20 ⟨0, 11⟩
       [.mk "identifier" true (some "pattern") 11 12 ⟨0, 11⟩ [],
        .mk "type_annotation" true (some "type") 12 20 ⟨0, 12⟩
         [.mk ":" false none 12 13 ⟨0, 12⟩ [],
          .mk "predefined_type" true none 14 20 ⟨0, 14⟩
           [.mk "number" false none 14 20 ⟨0, 14⟩ []]]],
      .mk ")" false none 20 21 ⟨0, 20⟩ []],
    .mk "type_annotation" true (some "return_type") 21 29 ⟨0, 21⟩
     [.mk ":" false none 21 22 ⟨0, 21⟩ [],
      .mk "predefined_type" true none 23 29 ⟨0, 23⟩
       [.mk "string" false none 23 29 ⟨0, 23⟩ []]],
    .mk "=>" false none 30 32 ⟨0, 30⟩ [],
    .mk "call_expression" true (some "body") 33 42 ⟨0, 33⟩
     [.mk "identifier" true (some "function") 33 39 ⟨0, 33⟩ [],
      .mk "arguments" true (some "arguments") 39 42 ⟨0, 39⟩
       [.mk "(" false none 39 40 ⟨0, 39⟩ [],
        .mk "identifier" true none 40 41 ⟨0, 40⟩ [],
        .mk ")" false none 41 42 ⟨0, 41⟩ []]]]

/-- The `variable_declarator` node of `kSource`; it has no `type` field. -/
def kDeclarator : Node :=
  .mk "variable_declarator" true none 6 42 ⟨0, 6⟩
   [kName,
    .mk "=" false none 8 9 ⟨0, 8⟩ [],
    kValue]

/-- The `lexical_declaration` node of `kSource`, the parent of `kDeclarator`. -/
def kLexical : Node :=
  .mk "lexical_declaration" true none 0 43 ⟨0, 0⟩
   [.mk "const" false none 0 5 ⟨0, 0⟩ [],
    kDeclarator,
    .mk ";" false none 42 43 ⟨0, 42⟩ []]

/-- The root of the tree of `kSource`. -/
def kProgram : Node :=
  .mk "program" true none 0 43 ⟨0, 0⟩
   [kLexical]

/-- The `parameters` field of `kValue`. -/
def kParams : Node :=
  .mk "formal_parameters" true (some "parameters") 10 21 ⟨0, 10⟩
   [.mk "(" false none 10 11 ⟨0, 10⟩ [],
    .mk "required_parameter" true none 11 20 ⟨0, 11⟩
     [.mk "identifier" true (some "pattern") 11 12 ⟨0, 11⟩ [],
      .mk "type_annotation" true (some "type") 12 20 ⟨0, 12⟩
       [.mk ":" false none 12 13 ⟨0, 12⟩ [],
        .mk "predefined_type" true none 14 20 ⟨0, 14⟩
         [.mk "number" false none 14 20 ⟨0, 14⟩ []]]],
    .mk ")" false none 20 21 ⟨0, 20⟩ []]

/-- The `return_type` field of `kValue`. -/
def kReturn : Node :=
  .mk "type_annotation" true (some "return_type") 21 29 ⟨0, 21⟩
   [.mk ":" false none 21 22 ⟨0, 21⟩ [],
    .mk "predefined_type" true none 23 29 ⟨0, 23⟩
     [.mk "string" false none 23 29 ⟨0, 23⟩ []]]

/-- The source `function s(x: number): string { return String(x) }`. -/
def sSource : GoString :=
  "function s(x: number): string \x7b return String(x) \x7d".toList

/-- The `name` field of `sNode`. -/
def sName : Node :=
  .mk "identifier" true (some "name") 9 10 ⟨0, 9⟩ []

/-- The `parameters` field of `sNode`. -/
def sParams : Node :=
  .mk "formal_parameters" true (some "parameters") 10 21 ⟨0, 10⟩
   [.mk "(" false none 10 11 ⟨0, 10⟩ [],
    .mk "required_parameter" true none 11 20 ⟨0, 11⟩
     [.mk "identifier" true (some "pattern") 11 12 ⟨0, 11⟩ [],
      .mk "type_annotation" true (some "type") 12 20 ⟨0, 12⟩
       [.mk ":" false none 12 13 ⟨0, 12⟩ [],
        .mk "predefined_type" true none 14 20 ⟨0, 14⟩
         [.mk "number" false none 14 20 ⟨0, 14⟩ []]]],
    .mk ")" false none 20 21 ⟨0, 20⟩ []]

/-- The `return_type` field of `sNode`. -/
def sReturn : Node :=
  .mk "type_annotation" true (some "return_type") 21 29 ⟨0, 21⟩
   [.mk ":" false none 21 22 ⟨0, 21⟩ [],
    .mk "predefined_type" true none 23 29 ⟨0, 23⟩
     [.mk "string" false none 23 29 ⟨0, 23⟩ []]]

/-- The `function_declaration` node of `sSource`. -/
def sNode : Node :=
  .mk "function_declaration" true none 0 50 ⟨0, 0⟩
   [.mk "function" false none 0 8 ⟨0, 0⟩ [],
    sName,
    sParams,
    sReturn,
    .mk "statement_block" true (some "body") 30 50 ⟨0, 30⟩
     [.mk "\x7b" false none 30 31 ⟨0, 30⟩ [],
      .mk "return_statement" true none 32 48 ⟨0, 32⟩
       [.mk "return" false none 32 38 ⟨0, 32⟩ [],
        .mk "call_expression" true none 39 48 ⟨0, 39⟩
         [.mk "identifier" true (some "function") 39 45 ⟨0, 39⟩ [],
          .mk "arguments" true (some "arguments") 45 48 ⟨0, 45⟩
           [.mk "(" false none 45 46 ⟨0, 45⟩ [],
            .mk "identifier" true none 46 47 ⟨0, 46⟩ [],
            .mk ")" false none 47 48 ⟨0, 47⟩ []]]],
      .mk "\x7d" false none 49 50 ⟨0, 49⟩ []]]

/-- The source `function m(p: Map<string, number>): void {}`. -/
def mapSource : GoString :=
  "function m(p: Map<string, number>): void \x7b\x7d".toList

/-- The `name` field of `mapType`. -/
def mapName : Node :=
  .mk "type_identifier" true (some "name") 14 17 ⟨0, 14⟩ []

/-- The `type_arguments` field of `mapType`: two named children between the
punctuation. -/
def mapArgs : Node :=
  .mk "type_arguments" true (some "type_arguments") 17 33 ⟨0, 17⟩
   [.mk "<" false none 17 18 ⟨0, 17⟩ [],
    .mk "predefined_type" true none 18 24 ⟨0, 18⟩
     [.mk "string" false none 18 24 ⟨0, 18⟩ []],
    .mk "," false none 24 25 ⟨0, 24⟩ [],
    .mk "predefined_type" true none 26 32 ⟨0, 26⟩
     [.mk "number" false none 26 32 ⟨0, 26⟩ []],
    .mk ">" false none 32 33 ⟨0, 32⟩ []]

/-- The `generic_type` node of `mapSource`: the type `Map<string, number>` of the parameter
`p`. -/
def mapType : Node :=
  .mk "generic_type" true none 14 33 ⟨0, 14⟩
   [mapName,
    mapArgs]

/-- The source `function t(p: [number,` `string]): void {}`, whose parameter type runs over
two lines. -/
def tupleSource : GoString :=
  "function t(p: [number,\n  string]): void \x7b\x7d".toList

/-- The `tuple_type` node of `tupleSource`, a category that `ParseTypeNode` does not know;
its text runs over two lines. -/
def tupleType : Node :=
  .mk "tuple_type" true none 14 32 ⟨0, 14⟩
   [.mk "[" false none 14 15 ⟨0, 14⟩ [],
    .mk "predefined_type" true none 15 21 ⟨0, 15⟩
     [.mk "number" false none 15 21 ⟨0, 15⟩ []],
    .mk "," false none 21 22 ⟨0, 21⟩ [],
    .mk "predefined_type" true none 25 31 ⟨1, 2⟩
     [.mk "string" false none 25 31 ⟨1, 2⟩ []],
    .mk "]" false none 31 32 ⟨1, 8⟩ []]

/-- The `type` field of the parameter `p` of `tupleSource`: the annotation around
`tupleType`. -/
def tupleAnnotated : Node :=
  .mk "type_annotation" true (some "type") 12 32 ⟨0, 12⟩
   [.mk ":" false none 12 13 ⟨0, 12⟩ [],
    tupleType]

/-- The `name` field of `tupleFunction`. -/
def tupleName : Node :=
  .mk "identifier" true (some "name") 9 10 ⟨0, 9⟩ []

/-- The `parameters` field of `tupleFunction`. -/
def tupleParams : Node :=
  .mk "formal_parameters" true (some "parameters") 10 33 ⟨0, 10⟩
   [.mk "(" false none 10 11 ⟨0, 10⟩ [],
    .mk "required_parameter" true none 11 32 ⟨0, 11⟩
     [.mk "identifier" true (some "pattern") 11 12 ⟨0, 11⟩ [],
      tupleAnnotated],
    .mk ")" false none 32 33 ⟨1, 9⟩ []]

/-- The `return_type` field of `tupleFunction`. -/
def tupleReturn : Node :=
  .mk "type_annotation" true (some "return_type") 33 39 ⟨1, 10⟩
   [.mk ":" false none 33 34 ⟨1, 10⟩ [],
    .mk "predefined_type" true none 35 39 ⟨1, 12⟩
     [.mk "void" false none 35 39 ⟨1, 12⟩ []]]

/-- The `function_declaration` node of `tupleSource`. -/
def tupleFunction : Node :=
  .mk "function_declaration" true none 0 42 ⟨0, 0⟩
   [.mk "function" false none 0 8 ⟨0, 0⟩ [],
    tupleName,
    tupleParams,
    tupleReturn,
    .mk "statement_block" true (some "body") 40 42 ⟨1, 17⟩
     [.mk "\x7b" false none 40 41 ⟨1, 17⟩ [],
      .mk "\x7d" false none 41 42 ⟨1, 18⟩ []]]

/-- The source `function v(x: number) {}`. -/
def vSource : GoString :=
  "function v(x: number) \x7b\x7d".toList

/-- The `function_declaration` node of `vSource`; it has no `return_type` field. -/
def vNode : Node :=
  .mk "function_declaration" true none 0 24 ⟨0, 0⟩
   [.mk "function" false none 0 8 ⟨0, 0⟩ [],
    .mk "identifier" true (some "name") 9 10 ⟨0, 9⟩ [],
    .mk "formal_parameters" true (some "parameters") 10 21 ⟨0, 10⟩
     [.mk "(" false none 10 11 ⟨0, 10⟩ [],
      .mk "required_parameter" true none 11 20 ⟨0, 11⟩
       [.mk "identifier" true (some "pattern") 11 12 ⟨0, 11⟩ [],
        .mk "type_annotation" true (some "type") 12 20 ⟨0, 12⟩
         [.mk ":" false none 12 13 ⟨0, 12⟩ [],
          .mk "predefined_type" true none 14 20 ⟨0, 14⟩
           [.mk "number" false none 14 20 ⟨0, 14⟩ []]]],
      .mk ")" false none 20 21 ⟨0, 20⟩ []],
    .mk "statement_block" true (some "body") 22 24 ⟨0, 22⟩
     [.mk "\x7b" false none 22 23 ⟨0, 22⟩ [],
      .mk "\x7d" false none 23 24 ⟨0, 23⟩ []]]

/-- The source `function o(x?: number): void {}`. -/
def oSource : GoString :=
  "function o(x?: number): void \x7b\x7d".toList

/-- The `optional_parameter` node of `oSource`: the name, the marker `?` and the
annotation, in this order. -/
def oParam : Node :=
  .mk "optional_parameter" true none 11 21 ⟨0, 11⟩
   [.mk "identifier" true (some "pattern") 11 12 ⟨0, 11⟩ [],
    .mk "?" false none 12 13 ⟨0, 12⟩ [],
    .mk "type_annotation" true (some "type") 13 21 ⟨0, 13⟩
     [.mk ":" false none 13 14 ⟨0, 13⟩ [],
      .mk "predefined_type" true none 15 21 ⟨0, 15⟩
       [.mk "number" false none 15 21 ⟨0, 15⟩ []]]]

/-- The `formal_parameters` node of `oSource`. -/
def oParams : Node :=
  .mk "formal_parameters" true (some "parameters") 10 22 ⟨0, 10⟩
   [.mk "(" false none 10 11 ⟨0, 10⟩ [],
    oParam,
    .mk ")" false none 21 22 ⟨0, 21⟩ []]

/-- The source `function r(x: number): void {}`. -/
def rSource : GoString :=
  "function r(x: number): void \x7b\x7d".toList

/-- The `required_parameter` node of `rSource`. -/
def rParam : Node :=
  .mk "required_parameter" true none 11 20 ⟨0, 11⟩
   [.mk "identifier" true (some "pattern") 11 12 ⟨0, 11⟩ [],
    .mk "type_annotation" true (some "type") 12 20 ⟨0, 12⟩
     [.mk ":" false none 12 13 ⟨0, 12⟩ [],
      .mk "predefined_type" true none 14 20 ⟨0, 14⟩
       [.mk "number" false none 14 20 ⟨0, 14⟩ []]]]

/-- The `formal_parameters` node of `rSource`. -/
def rParams : Node :=
  .mk "formal_parameters" true (some "parameters") 10 21 ⟨0, 10⟩
   [.mk "(" false none 10 11 ⟨0, 10⟩ [],
    rParam,
    .mk ")" false none 20 21 ⟨0, 20⟩ []]

/-- The source `function w(p: readonly string[]): void {}`. -/
def wSource : GoString :=
  "function w(p: readonly string[]): void \x7b\x7d".toList

/-- The `array_type` node of `wSource`: the type `string[]`. -/
def wArray : Node :=
  .mk "array_type" true none 23 31 ⟨0, 23⟩
   [.mk "predefined_type" true none 23 29 ⟨0, 23⟩
     [.mk "string" false none 23 29 ⟨0, 23⟩ []],
    .mk "[" false none 29 30 ⟨0, 29⟩ [],
    .mk "]" false none 30 31 ⟨0, 30⟩ []]

/-- The `readonly_type` node of `wSource`: the token `readonly` and `wArray`. -/
def wReadonly : Node :=
  .mk "readonly_type" true none 14 31 ⟨0, 14⟩
   [.mk "readonly" false none 14 22 ⟨0, 14⟩ [],
    wArray]

/-- The `type` field of the parameter `p` of `wSource`: the annotation around
`wReadonly`. -/
def wAnnotated : Node :=
  .mk "type_annotation" true (some "type") 12 31 ⟨0, 12⟩
   [.mk ":" false none 12 13 ⟨0, 12⟩ [],
    wReadonly]

/-- The third child of `oParam`: the annotation `: number`. -/
def oAnnotated : Node :=
  .mk "type_annotation" true (some "type") 13 21 ⟨0, 13⟩
   [.mk ":" false none 13 14 ⟨0, 13⟩ [],
    .mk "predefined_type" true none 15 21 ⟨0, 15⟩
     [.mk "number" false none 15 21 ⟨0, 15⟩ []]]

/-- The `type` field of `rParam`: the annotation `: number`. -/
def rAnnotated : Node :=
  .mk "type_annotation" true (some "type") 12 20 ⟨0, 12⟩
   [.mk ":" false none 12 13 ⟨0, 12⟩ [],
    .mk "predefined_type" true none 14 20 ⟨0, 14⟩
     [.mk "number" false none 14 20 ⟨0, 14⟩ []]]

/-- The source `function q(p: { a: number, b: string }): void {}`. -/
def pairSource : GoString :=
  "function q(p: \x7b a: number, b: string \x7d): void \x7b\x7d".toList

/-- The `object_type` node of `pairSource`: the type `{ a: number, b: string }` of the
parameter `p`, with two property signatures. -/
def pairObjectType : Node :=
  .mk "object_type" true none 14 38 ⟨0, 14⟩
   [.mk "\x7b" false none 14 15 ⟨0, 14⟩ [],
    .mk "property_signature" true none 16 25 ⟨0, 16⟩
     [.mk "property_identifier" true (some "name") 16 17 ⟨0, 16⟩ [],
      .mk "type_annotation" true (some "type") 17 25 ⟨0, 17⟩
       [.mk ":" false none 17 18 ⟨0, 17⟩ [],
        .mk "predefined_type" true none 19 25 ⟨0, 19⟩
         [.mk "number" false none 19 25 ⟨0, 19⟩ []]]],
    .mk "," false none 25 26 ⟨0, 25⟩ [],
    .mk "property_signature" true none 27 36 ⟨0, 27⟩
     [.mk "property_identifier" true (some "name") 27 28 ⟨0, 27⟩ [],
      .mk "type_annotation" true (some "type") 28 36 ⟨0, 28⟩
       [.mk ":" false none 28 29 ⟨0, 28⟩ [],
        .mk "predefined_type" true none 30 36 ⟨0, 30⟩
         [.mk "string" false none 30 36 ⟨0, 30⟩ []]]],
    .mk "\x7d" false none 37 38 ⟨0, 37⟩ []]

/-- The source `function z(): void {}`. -/
def zSource : GoString :=
  "function z(): void \x7b\x7d".toList

/-- The `formal_parameters` node of `zSource`: the two parentheses and no parameter. -/
def zParams : Node :=
  .mk "formal_parameters" true (some "parameters") 10 12 ⟨0, 10⟩
   [.mk "(" false none 10 11 ⟨0, 10⟩ [],
    .mk ")" false none 11 12 ⟨0, 11⟩ []]

/-- The declaration that `addSource` holds. -/
def addDeclaration : FunctionDeclaration :=
  { Name := "add".toList, Type_ := "(number, number) -> number".toList, Position := ⟨0, 0⟩ }

/-! ## The library distance and the reading of a printed row -/

/-- Modelled from the spec: the library function `levenshtein.ComputeDistance` (package
`github.com/agnivade/levenshtein`, outside the repository), the Levenshtein distance on
characters: the least number of single-character insertions, deletions and substitutions
that turn `a` into `b`, by the recurrence on the first characters
(`levenshtein_script`, `levenshtein_le_of_script`: it is the least number of edits of an
`EditScript`). -/
def levenshtein.ComputeDistance : GoString → GoString → Int
  | [], b => b.length
  | a, [] => a.length
  | x :: a, y :: b =>
    if x = y then levenshtein.ComputeDistance a b
    else 1 + min (min (levenshtein.ComputeDistance a b) (levenshtein.ComputeDistance a (y :: b)))
      (levenshtein.ComputeDistance (x :: a) b)
termination_by a b => a.length + b.length

/-- A way of turning `a` into `b`, character by character from the left, with the number
of single-character insertions, deletions and substitutions it makes. -/
inductive EditScript : GoString → GoString → Nat → Prop
  | done : EditScript [] [] 0
  | keep (x : Char) {a b : GoString} {n : Nat} :
      EditScript a b n → EditScript (x :: a) (x :: b) n
  | substitute (x y : Char) {a b : GoString} {n : Nat} :
      EditScript a b n → EditScript (x :: a) (y :: b) (n + 1)
  | delete (x : Char) {a b : GoString} {n : Nat} :
      EditScript a b n → EditScript (x :: a) b (n + 1)
  | add (y : Char) {a b : GoString} {n : Nat} :
      EditScript a b n → EditScript a (y :: b) (n + 1)

/-- The number that a string of decimal digits denotes, read from the left. -/
def decimalValue (digits : GoString) : Nat :=
  digits.foldl (fun value c => 10 * value + (c.toNat - '0'.toNat)) 0

/-! ## Lemmas on the stable sort -/

theorem sinkLeft_perm {α : Type} (less : α → α → Bool) (x : α) (l : List α) :
    (sinkLeft less x l).Perm (x :: l) := by
  induction l with
  | nil => simp [sinkLeft]
  | cons y ys ih =>
    unfold sinkLeft
    split
    · exact (List.Perm.cons y ih).trans (List.Perm.swap x y ys)
    · exact List.Perm.refl _

theorem insertionLoop_perm {α : Type} (less : α → α → Bool) (rest done : List α) :
    (insertionLoop less done rest).Perm (done.reverse ++ rest) := by
  induction rest generalizing done with
  | nil => simp [insertionLoop]
  | cons x rest ih =>
    unfold insertionLoop
    refine (ih (sinkLeft less x done)).trans ?_
    have h1 : (sinkLeft less x done).reverse.Perm (done.reverse ++ [x]) := by
      refine (List.reverse_perm _).trans ?_
      refine (sinkLeft_perm less x done).trans ?_
      exact (List.Perm.cons x (List.reverse_perm done).symm).trans
        (List.perm_append_singleton x done.reverse).symm
    simpa using List.Perm.append_right rest h1

theorem SliceStable_perm {α : Type} (less : α → α → Bool) (x : List α) :
    (SliceStable less x).Perm x := by
  simpa [SliceStable] using insertionLoop_perm less x []

/-- Sinking into a prefix that descends by `key` (nearest neighbour first) keeps it so. -/
theorem sinkLeft_sorted {α : Type} (key : α → Int) (x : α) (l : List α)
    (h : l.Pairwise (fun a b => key b ≤ key a)) :
    (sinkLeft (fun a b => decide (key a < key b)) x l).Pairwise (fun a b => key b ≤ key a) := by
  induction l with
  | nil => simp [sinkLeft]
  | cons y ys ih =>
    rw [List.pairwise_cons] at h
    unfold sinkLeft
    split
    · rename_i hlt
      have hlt' : key x < key y := by simpa using hlt
      rw [List.pairwise_cons]
      refine ⟨?_, ih h.2⟩
      intro b hb
      rcases List.mem_cons.mp ((sinkLeft_perm _ x ys).mem_iff.mp hb) with rfl | hb'
      · exact le_of_lt hlt'
      · exact h.1 b hb'
    · rename_i hlt
      have hge : key y ≤ key x := by simpa using hlt
      rw [List.pairwise_cons]
      refine ⟨?_, List.pairwise_cons.mpr h⟩
      intro b hb
      rcases List.mem_cons.mp hb with rfl | hb'
      · exact hge
      · exact le_trans (h.1 b hb') hge

theorem insertionLoop_sorted {α : Type} (key : α → Int) (rest done : List α)
    (h : done.Pairwise (fun a b => key b ≤ key a)) :
    (insertionLoop (fun a b => decide (key a < key b)) done rest).Pairwise
      (fun a b => key a ≤ key b) := by
  induction rest generalizing done with
  | nil =>
    unfold insertionLoop
    exact List.pairwise_reverse.mpr h
  | cons x rest ih =>
    unfold insertionLoop
    exact ih _ (sinkLeft_sorted key x done h)

theorem SliceStable_sorted {α : Type} (key : α → Int) (x : List α) :
    (SliceStable (fun a b => decide (key a < key b)) x).Pairwise (fun a b => key a ≤ key b) :=
  insertionLoop_sorted key x [] List.Pairwise.nil

/-- Sinking never passes an element of the same class: on every class of elements that
`less` does not separate from its own members, the members keep their order. -/
theorem sinkLeft_filter {α : Type} (key : α → Int) (p : α → Bool)
    (hp : ∀ a b, p a = true → p b = true → key a = key b) (x : α) (l : List α) :
    (sinkLeft (fun a b => decide (key a < key b)) x l).filter p = (x :: l).filter p := by
  induction l with
  | nil => rfl
  | cons y ys ih =>
    unfold sinkLeft
    split
    · rename_i hlt
      have hlt' : key x < key y := by simpa using hlt
      rw [List.filter_cons, ih]
      by_cases hx : p x = true
      · have hy : ¬ p y = true := fun hy => by
          have := hp x y hx hy
          omega
        simp [List.filter_cons, hx, hy]
      · simp [List.filter_cons, hx]
    · rfl

theorem insertionLoop_filter {α : Type} (key : α → Int) (p : α → Bool)
    (hp : ∀ a b, p a = true → p b = true → key a = key b) (rest done : List α) :
    (insertionLoop (fun a b => decide (key a < key b)) done rest).filter p
      = (done.filter p).reverse ++ rest.filter p := by
  induction rest generalizing done with
  | nil => simp [insertionLoop, List.filter_reverse]
  | cons x rest ih =>
    unfold insertionLoop
    rw [ih, sinkLeft_filter key p hp]
    by_cases hx : p x = true <;> simp [List.filter_cons, hx]

theorem SliceStable_filter {α : Type} (key : α → Int) (p : α → Bool)
    (hp : ∀ a b, p a = true → p b = true → key a = key b) (x : List α) :
    (SliceStable (fun a b => decide (key a < key b)) x).filter p = x.filter p := by
  simp [SliceStable, insertionLoop_filter key p hp]

/-- Two sequences that are sorted by `key` and list every class of equal keys in the same
order are the same sequence: sortedness and stability together determine the result of a
stable sort. -/
theorem sorted_stable_unique {α : Type} (key : α → Int) (l₁ l₂ : List α)
    (h₁ : l₁.Pairwise (fun a b => key a ≤ key b))
    (h₂ : l₂.Pairwise (fun a b => key a ≤ key b))
    (hf : ∀ k : Int, l₁.filter (fun a => decide (key a = k))
      = l₂.filter (fun a => decide (key a = k))) : l₁ = l₂ := by
  induction l₁ generalizing l₂ with
  | nil =>
    cases l₂ with
    | nil => rfl
    | cons b t₂ =>
      have := hf (key b)
      simp [List.filter_cons] at this
  | cons a t₁ ih =>
    cases l₂ with
    | nil =>
      have := hf (key a)
      simp [List.filter_cons] at this
    | cons b t₂ =>
      rw [List.pairwise_cons] at h₁ h₂
      have hmem₁ : ∀ x, x ∈ a :: t₁ → key a ≤ key x := by
        intro x hx
        rcases List.mem_cons.mp hx with rfl | hx
        · exact le_refl _
        · exact h₁.1 x hx
      have hmem₂ : ∀ x, x ∈ b :: t₂ → key b ≤ key x := by
        intro x hx
        rcases List.mem_cons.mp hx with rfl | hx
        · exact le_refl _
        · exact h₂.1 x hx
      have hab : key a = key b := by
        have ha : a ∈ (b :: t₂).filter (fun x => decide (key x = key a)) := by
          rw [← hf (key a)]
          simp [List.filter_cons]
        have hb : b ∈ (a :: t₁).filter (fun x => decide (key x = key b)) := by
          rw [hf (key b)]
          simp [List.filter_cons]
        have ha' := hmem₂ a (List.mem_of_mem_filter ha)
        have hb' := hmem₁ b (List.mem_of_mem_filter hb)
        omega
      have hhead := hf (key a)
      simp only [List.filter_cons, decide_True, if_true, hab] at hhead
      rw [← hab] at hhead
      simp only [decide_True, if_true, List.cons.injEq] at hhead
      obtain ⟨heq, htail⟩ := hhead
      subst heq
      congr 1
      refine ih t₂ h₁.2 h₂.2 ?_
      intro k
      by_cases hk : key a = k
      · rw [← hk]
        exact htail
      · have := hf k
        simpa [List.filter_cons, hk] using this

/-- Whatever `sort.SliceStable` does inside, a result that is sorted by `key` and keeps every
class of equal keys in its order is the one of the model. -/
theorem SliceStable_unique {α : Type} (key : α → Int) (x sorted : List α)
    (hs : sorted.Pairwise (fun a b => key a ≤ key b))
    (hf : ∀ k : Int, sorted.filter (fun a => decide (key a = k))
      = x.filter (fun a => decide (key a = k))) :
    sorted = SliceStable (fun a b => decide (key a < key b)) x := by
  refine sorted_stable_unique key _ _ hs (SliceStable_sorted key x) ?_
  intro k
  rw [hf k, SliceStable_filter key _ ?_ x]
  intro a b ha hb
  simp only [decide_eq_true_eq] at ha hb
  exact ha.trans hb.symm

theorem printLoop_eq (file : GoString) (ds : List FunctionDeclaration) (i : Nat) :
    printLoop file i ds = (ds.take (10 - i)).map (fun d => d.String file) := by
  induction ds generalizing i with
  | nil => simp [printLoop]
  | cons d ds ih =>
    unfold printLoop
    split
    · rename_i h
      have : 10 - i = 0 := by omega
      simp [this]
    · rename_i h
      have : 10 - i = (10 - (i + 1)) + 1 := by omega
      rw [ih, this, List.take_succ_cons, List.map_cons]

/-! ## The claims on ranking -/

/-- C1: for every declaration list and query, the sequence that `main` ranks is a permutation
of the extracted declarations, and along it the distance of the declaration's type to the
query never decreases. -/
theorem rank_perm_sorted (lev : GoString → GoString → Int)
    (declarations : List FunctionDeclaration) (query : GoString) :
    (rank lev declarations query).Perm declarations ∧
      (rank lev declarations query).Pairwise
        (fun d1 d2 => ComputeDistance lev d1 query ≤ ComputeDistance lev d2 query) :=
  ⟨SliceStable_perm _ declarations,
    SliceStable_sorted (fun d => ComputeDistance lev d query) declarations⟩

/-- C2: ranking is stable: for every distance `k`, the declarations at distance `k` from the
query stand in the ranked sequence in the order they have in the extraction sequence. -/
theorem rank_stable (lev : GoString → GoString → Int)
    (declarations : List FunctionDeclaration) (query : GoString) (k : Int) :
    (rank lev declarations query).filter (fun d => decide (ComputeDistance lev d query = k))
      = declarations.filter (fun d => decide (ComputeDistance lev d query = k)) := by
  refine SliceStable_filter (fun d => ComputeDistance lev d query) _ ?_ declarations
  intro a b ha hb
  simp only [decide_eq_true_eq] at ha hb
  exact ha.trans hb.symm

/-- C3: the lines that `main` writes are those of the first `min 10 N` ranked declarations,
in ranked order, for every query; with fewer than ten declarations all are written. -/
theorem mainOutput_first_ten (lev : GoString → GoString → Int) (file : GoString)
    (declarations : List FunctionDeclaration) (query : GoString) :
    mainOutput lev file declarations query
        = ((rank lev declarations query).take (min 10 declarations.length)).map
            (fun d => d.String file)
      ∧ (mainOutput lev file declarations query).length = min 10 declarations.length
      ∧ (declarations.length < 10 →
          mainOutput lev file declarations query
            = (rank lev declarations query).map (fun d => d.String file)) := by
  have hlen : (rank lev declarations query).length = declarations.length :=
    (SliceStable_perm _ declarations).length_eq
  have h10 : mainOutput lev file declarations query
      = ((rank lev declarations query).take 10).map (fun d => d.String file) := by
    simp [mainOutput, printLoop_eq]
  refine ⟨?_, ?_, ?_⟩
  · rw [h10]
    congr 1
    rw [← hlen, List.take_eq_take]
    simp
  · rw [h10, List.length_map, List.length_take, hlen]
  · intro hN
    rw [h10, List.take_of_length_le (by omega)]

/-- C3 at two declarations, fewer than ten: both are written. -/
theorem mainOutput_first_ten_witness :
    ([⟨"f".toList, "(number) -> string".toList, ⟨0, 6⟩⟩,
        ⟨"add".toList, "(number, number) -> number".toList, ⟨3, 0⟩⟩] :
        List FunctionDeclaration).length < 10
    ∧ mainOutput (fun a b => (a.length : Int) - b.length) "a.ts".toList
        [⟨"f".toList, "(number) -> string".toList, ⟨0, 6⟩⟩,
          ⟨"add".toList, "(number, number) -> number".toList, ⟨3, 0⟩⟩] "".toList
      = (rank (fun a b => (a.length : Int) - b.length)
          [⟨"f".toList, "(number) -> string".toList, ⟨0, 6⟩⟩,
            ⟨"add".toList, "(number, number) -> number".toList, ⟨3, 0⟩⟩] "".toList).map
          (fun d => d.String "a.ts".toList) :=
  ⟨by decide, (mainOutput_first_ten _ _ _ _).2.2 (by decide)⟩

/-! ## Lemmas on the text normalization -/

theorem ReplaceFirstColon_sublist (s : GoString) : (ReplaceFirstColon s).Sublist s := by
  induction s with
  | nil => exact List.Sublist.refl _
  | cons c cs ih =>
    unfold ReplaceFirstColon
    split
    · exact List.sublist_cons_self c cs
    · exact ih.cons₂ c

theorem ReplaceFirstColon_of_not_mem (s : GoString) (h : ':' ∉ s) : ReplaceFirstColon s = s := by
  induction s with
  | nil => rfl
  | cons c cs ih =>
    unfold ReplaceFirstColon
    have hc : ¬ c = ':' := fun hc => h (by simp [hc])
    rw [if_neg hc, ih (fun hm => h (List.mem_cons_of_mem c hm))]

theorem ReplaceSpaceRuns_sublist (s : GoString) (inRun : Bool) :
    (ReplaceSpaceRuns inRun s).Sublist s := by
  induction s generalizing inRun with
  | nil => exact List.Sublist.refl _
  | cons c cs ih =>
    unfold ReplaceSpaceRuns
    split
    · rename_i hc
      split
      · exact (ih true).cons c
      · rw [hc]
        exact (ih true).cons₂ ' '
    · exact (ih false).cons₂ c

/-- A string without two consecutive spaces is left as it is by the replacement of the
runs; within a run (`inRun`), the string must not go on with a space. -/
theorem ReplaceSpaceRuns_of_no_run (s : GoString) (inRun : Bool)
    (hhead : inRun = true → s.head? ≠ some ' ')
    (h : ¬ "  ".toList <:+: s) : ReplaceSpaceRuns inRun s = s := by
  induction s generalizing inRun with
  | nil => rfl
  | cons c cs ih =>
    have htail : ¬ "  ".toList <:+: cs := fun hi => h (hi.trans (List.suffix_cons c cs).isInfix)
    unfold ReplaceSpaceRuns
    split
    · rename_i hc
      have hrun : ¬ inRun = true := fun hb => hhead hb (by simp [hc])
      rw [if_neg hrun, ih true ?_ htail, hc]
      intro _ hcs
      apply h
      cases cs with
      | nil => simp at hcs
      | cons d ds =>
        simp only [List.head?_cons, Option.some.injEq] at hcs
        rw [hc, hcs]
        exact ⟨[], ds, rfl⟩
    · rw [ih false (fun hb => by cases hb) htail]

theorem not_newline_mem_NormalizeContent (s : GoString) : '\n' ∉ NormalizeContent s := by
  intro h
  have h1 : '\n' ∈ ReplaceAllNewlines s := (ReplaceSpaceRuns_sublist _ false).subset h
  simp [ReplaceAllNewlines] at h1

theorem TrimSpace_sublist (s : GoString) : (TrimSpace s).Sublist s :=
  (List.rdropWhile_prefix isSpace _).sublist.trans (List.dropWhile_sublist isSpace)

/-- A prefix of a string whose leading white space is dropped has no leading white space. -/
theorem dropWhile_of_prefix_dropWhile (p : Char → Bool) (u l : List Char)
    (h : u <+: l.dropWhile p) : u.dropWhile p = u := by
  cases u with
  | nil => rfl
  | cons a as =>
    obtain ⟨t, ht⟩ := h
    have hne : l.dropWhile p ≠ [] := by
      rw [← ht]
      simp
    have hhead := List.head_dropWhile_not p l hne
    simp only [← ht, List.cons_append, List.head_cons] at hhead
    simp [List.dropWhile_cons, hhead]

theorem TrimSpace_idempotent (s : GoString) : TrimSpace (TrimSpace s) = TrimSpace s := by
  have hdrop : (TrimSpace s).dropWhile isSpace = TrimSpace s :=
    dropWhile_of_prefix_dropWhile isSpace _ s (List.rdropWhile_prefix isSpace _)
  show List.rdropWhile isSpace ((TrimSpace s).dropWhile isSpace) = TrimSpace s
  rw [hdrop]
  exact List.rdropWhile_idempotent isSpace _

/-! ## Unfolding lemmas for the canonicalizer -/

/-- The body of `ParseTypeNode`, with the nil checks written as binds. -/
theorem ParseTypeNode_unfold (node : Node) (sourceCode : GoString) :
    ParseTypeNode node sourceCode =
      (unwrapAnnotated node).bind fun node =>
        if node.Type_ = "function_type" ∨ node.Type_ = "arrow_function" then
          ParseFunctionTypeNode node sourceCode
        else if node.Type_ ∈ simpleCategories then
          (node.Content sourceCode).map fun content => NormalizeParam (NormalizeContent content)
        else if node.Type_ = "readonly_type" then
          (node.NamedChild 0).bind fun inner => ParseTypeNode inner sourceCode
        else if node.Type_ = "generic_type" then
          (node.ChildByFieldName "name").bind fun nameNode =>
          (node.ChildByFieldName "type_arguments").bind fun typeArgs =>
          (nameNode.Content sourceCode).bind fun genericName =>
          (ParseTypeArgs typeArgs.children sourceCode).bind fun strArgs =>
            some (genericName ++ "<".toList ++ Join strArgs ", ".toList ++ ">".toList)
        else
          (node.Content sourceCode).map fun content =>
            "UNKNOWN: ".toList ++ NormalizeContent content := by
  rw [ParseTypeNode]
  split
  · rename_i h
    simp only [h, Option.none_bind]
  · rename_i n h
    simp only [h, Option.some_bind]
    split
    · rfl
    split
    · split <;> simp only [*, Option.map_some', Option.map_none']
    split
    · split <;> simp only [*, Option.some_bind, Option.none_bind]
    split
    · split
      · rename_i h1 h2
        simp only [h1, h2, Option.some_bind]
        split
        · rename_i h3 h4
          simp only [h3, h4, Option.some_bind]
        · rename_i h3
          cases h6 : Node.Content _ sourceCode with
          | none => rfl
          | some g =>
            cases h7 : ParseTypeArgs _ sourceCode with
            | none => rfl
            | some a => exact (h3 g a h6 h7).elim
      · rename_i h3
        cases h6 : n.ChildByFieldName "name" with
        | none => rfl
        | some g =>
          cases h7 : n.ChildByFieldName "type_arguments" with
          | none => rfl
          | some a => exact (h3 g a h6 h7).elim
    · split <;> simp only [*, Option.map_some', Option.map_none']

/-- The body of `ParseFunctionTypeNode`, with the nil checks written as binds. -/
theorem ParseFunctionTypeNode_unfold (node : Node) (sourceCode : GoString) :
    ParseFunctionTypeNode node sourceCode =
      (node.ChildByFieldName "parameters").bind fun params =>
      (node.ChildByFieldName "return_type").bind fun returnType =>
      (ParseParamsNode params sourceCode).bind fun strParams =>
      (ParseTypeNode returnType sourceCode).bind fun strReturnType =>
        some ("(".toList ++ strParams ++ ") -> ".toList ++ strReturnType) := by
  rw [ParseFunctionTypeNode]
  split
  · rename_i h1 h2
    simp only [h1, h2, Option.some_bind]
    split
    · rename_i h3 h4
      simp only [h3, h4, Option.some_bind]
    · rename_i h3
      cases h6 : ParseParamsNode _ sourceCode with
      | none => rfl
      | some g =>
        cases h7 : ParseTypeNode _ sourceCode with
        | none => rfl
        | some a => exact (h3 g a h6 h7).elim
  · rename_i h3
    cases h6 : node.ChildByFieldName "parameters" with
    | none => rfl
    | some g =>
      cases h7 : node.ChildByFieldName "return_type" with
      | none => rfl
      | some a => exact (h3 g a h6 h7).elim

/-- The body of `ParseParamsNode`. -/
theorem ParseParamsNode_unfold (node : Node) (sourceCode : GoString) :
    ParseParamsNode node sourceCode =
      (ParseParams node.children sourceCode).map fun strParams => Join strParams ", ".toList := by
  rw [ParseParamsNode]
  split <;> simp only [*, Option.map_some', Option.map_none']

theorem ParseParams_nil (sourceCode : GoString) : ParseParams [] sourceCode = some [] := by
  rw [ParseParams]

/-- One turn of the loop of `ParseParamsNode`. -/
theorem ParseParams_cons (child : Node) (rest : List Node) (sourceCode : GoString) :
    ParseParams (child :: rest) sourceCode =
      if child.Type_ = "required_parameter" then
        (child.ChildByFieldName "type").bind fun paramType =>
        (ParseTypeNode paramType sourceCode).bind fun strParam =>
        (ParseParams rest sourceCode).bind fun strParams => some (strParam :: strParams)
      else if child.Type_ = "optional_parameter" then
        (child.Child 2).bind fun paramType =>
        (ParseTypeNode paramType sourceCode).bind fun strParam =>
        (ParseParams rest sourceCode).bind fun strParams => some (strParam :: strParams)
      else ParseParams rest sourceCode := by
  rw [ParseParams]
  split
  · split
    · rename_i h1
      simp only [h1, Option.some_bind]
      split
      · rename_i h3 h4
        simp only [h3, h4, Option.some_bind]
      · rename_i h3
        cases h6 : ParseTypeNode _ sourceCode with
        | none => rfl
        | some g =>
          cases h7 : ParseParams rest sourceCode with
          | none => rfl
          | some a => exact (h3 g a h6 h7).elim
    · rename_i h1
      simp only [h1, Option.none_bind]
  split
  · split
    · rename_i h1
      simp only [h1, Option.some_bind]
      split
      · rename_i h3 h4
        simp only [h3, h4, Option.some_bind]
      · rename_i h3
        cases h6 : ParseTypeNode _ sourceCode with
        | none => rfl
        | some g =>
          cases h7 : ParseParams rest sourceCode with
          | none => rfl
          | some a => exact (h3 g a h6 h7).elim
    · rename_i h1
      simp only [h1, Option.none_bind]
  · rfl

theorem ParseTypeArgs_nil (sourceCode : GoString) : ParseTypeArgs [] sourceCode = some [] := by
  rw [ParseTypeArgs]

/-- One turn of the loop over the type arguments. -/
theorem ParseTypeArgs_cons (arg : Node) (rest : List Node) (sourceCode : GoString) :
    ParseTypeArgs (arg :: rest) sourceCode =
      if arg.IsNamed then
        (ParseTypeNode arg sourceCode).bind fun strArg =>
        (ParseTypeArgs rest sourceCode).bind fun strArgs => some (strArg :: strArgs)
      else ParseTypeArgs rest sourceCode := by
  rw [ParseTypeArgs]
  split
  · split
    · rename_i h3 h4
      simp only [h3, h4, Option.some_bind]
    · rename_i h3
      cases h6 : ParseTypeNode _ sourceCode with
      | none => rfl
      | some g =>
        cases h7 : ParseTypeArgs rest sourceCode with
        | none => rfl
        | some a => exact (h3 g a h6 h7).elim
  · rfl

/-! ## Evaluation rules for the canonicalizer -/

theorem ParseTypeNode_simple {node n : Node} {sourceCode content r : GoString}
    (hu : unwrapAnnotated node = some n) (hk : n.Type_ ∈ simpleCategories)
    (hc : n.Content sourceCode = some content)
    (hr : NormalizeParam (NormalizeContent content) = r) :
    ParseTypeNode node sourceCode = some r := by
  have hf : ¬ (n.Type_ = "function_type" ∨ n.Type_ = "arrow_function") := by
    rintro (h | h) <;> rw [h] at hk <;> revert hk <;> decide
  rw [ParseTypeNode_unfold, hu, Option.some_bind, if_neg hf, if_pos hk, hc, Option.map_some', hr]

theorem ParseTypeNode_function {node n : Node} {sourceCode : GoString} {r : Option GoString}
    (hu : unwrapAnnotated node = some n)
    (hk : n.Type_ = "function_type" ∨ n.Type_ = "arrow_function")
    (h : ParseFunctionTypeNode n sourceCode = r) :
    ParseTypeNode node sourceCode = r := by
  rw [ParseTypeNode_unfold, hu, Option.some_bind, if_pos hk, h]

theorem ParseFunctionTypeNode_fields {node params returnType : Node}
    {sourceCode strParams strReturnType r : GoString}
    (hp : node.ChildByFieldName "parameters" = some params)
    (hr : node.ChildByFieldName "return_type" = some returnType)
    (hps : ParseParamsNode params sourceCode = some strParams)
    (hrs : ParseTypeNode returnType sourceCode = some strReturnType)
    (hres : "(".toList ++ strParams ++ ") -> ".toList ++ strReturnType = r) :
    ParseFunctionTypeNode node sourceCode = some r := by
  rw [ParseFunctionTypeNode_unfold, hp, hr, Option.some_bind, Option.some_bind, hps,
    Option.some_bind, hrs, Option.some_bind, hres]

theorem ParseParams_required {child paramType : Node} {rest : List Node} {sourceCode : GoString}
    {strParam : GoString} {strParams : List GoString}
    (hk : child.Type_ = "required_parameter")
    (ht : child.ChildByFieldName "type" = some paramType)
    (hp : ParseTypeNode paramType sourceCode = some strParam)
    (hr : ParseParams rest sourceCode = some strParams) :
    ParseParams (child :: rest) sourceCode = some (strParam :: strParams) := by
  rw [ParseParams_cons, if_pos hk, ht, Option.some_bind, hp, Option.some_bind, hr,
    Option.some_bind]

theorem ParseParams_optional {child paramType : Node} {rest : List Node} {sourceCode : GoString}
    {strParam : GoString} {strParams : List GoString}
    (hk : child.Type_ = "optional_parameter")
    (ht : child.Child 2 = some paramType)
    (hp : ParseTypeNode paramType sourceCode = some strParam)
    (hr : ParseParams rest sourceCode = some strParams) :
    ParseParams (child :: rest) sourceCode = some (strParam :: strParams) := by
  have hn : ¬ child.Type_ = "required_parameter" := by
    rw [hk]
    decide
  rw [ParseParams_cons, if_neg hn, if_pos hk, ht, Option.some_bind, hp, Option.some_bind, hr,
    Option.some_bind]

theorem ParseParams_skip {child : Node} {rest : List Node} {sourceCode : GoString}
    {r : Option (List GoString)}
    (hr : child.Type_ ≠ "required_parameter") (ho : child.Type_ ≠ "optional_parameter")
    (h : ParseParams rest sourceCode = r) :
    ParseParams (child :: rest) sourceCode = r := by
  rw [ParseParams_cons, if_neg hr, if_neg ho, h]

theorem ParseParamsNode_of_loop {node : Node} {sourceCode r : GoString}
    {strParams : List GoString}
    (h : ParseParams node.children sourceCode = some strParams)
    (hj : Join strParams ", ".toList = r) :
    ParseParamsNode node sourceCode = some r := by
  rw [ParseParamsNode_unfold, h, Option.map_some', hj]

/-! ## Evaluation rules for the extractor -/

/-- The first `case` of `ParseFunctionNode`, with the fields of the node at hand. -/
theorem ParseFunctionNode_function_eq {node nameNode params returnType : Node}
    (ancestors : List Node) (sourceCode : GoString)
    (hk : node.Type_ = "function_declaration" ∨ node.Type_ = "function_signature")
    (hn : node.ChildByFieldName "name" = some nameNode)
    (hp : node.ChildByFieldName "parameters" = some params)
    (hr : node.ChildByFieldName "return_type" = some returnType) :
    ParseFunctionNode node ancestors sourceCode =
      (nameNode.Content sourceCode).bind fun name =>
      (ParseParamsNode params sourceCode).bind fun strParams =>
      (ParseTypeNode returnType sourceCode).bind fun strReturnType =>
        some { Name := name
               Type_ := "(".toList ++ strParams ++ ") -> ".toList ++ strReturnType
               Position := node.StartPoint } := by
  unfold ParseFunctionNode
  rw [if_pos hk, hn, hp, hr]
  simp only [Option.some_bind]
  cases nameNode.Content sourceCode <;> cases ParseParamsNode params sourceCode <;>
    cases ParseTypeNode returnType sourceCode <;> rfl

/-- The second `case` of `ParseFunctionNode` when the declarator has a `type` field. -/
theorem ParseFunctionNode_variable_type_eq {node nameNode typeNode : Node}
    (ancestors : List Node) (sourceCode : GoString)
    (hk : node.Type_ = "variable_declarator")
    (hn : node.ChildByFieldName "name" = some nameNode)
    (ht : node.ChildByFieldName "type" = some typeNode) :
    ParseFunctionNode node ancestors sourceCode =
      (nameNode.Content sourceCode).bind fun name =>
      (ParseTypeNode typeNode sourceCode).bind fun type =>
        some { Name := name, Type_ := type, Position := node.StartPoint } := by
  have h1 : ¬ (node.Type_ = "function_declaration" ∨ node.Type_ = "function_signature") := by
    rw [hk]
    decide
  unfold ParseFunctionNode
  rw [if_neg h1, if_pos hk, hn, ht]
  simp only [Option.some_bind, Option.isSome_some, if_true]
  cases nameNode.Content sourceCode <;> cases ParseTypeNode typeNode sourceCode <;> rfl

/-- The second `case` of `ParseFunctionNode` when the declarator has no `type` field but a
`value` field. -/
theorem ParseFunctionNode_variable_value_eq {node nameNode valueNode : Node}
    (ancestors : List Node) (sourceCode : GoString)
    (hk : node.Type_ = "variable_declarator")
    (hn : node.ChildByFieldName "name" = some nameNode)
    (ht : node.ChildByFieldName "type" = none)
    (hv : node.ChildByFieldName "value" = some valueNode) :
    ParseFunctionNode node ancestors sourceCode =
      (nameNode.Content sourceCode).bind fun name =>
      (ParseTypeNode valueNode sourceCode).bind fun type =>
        some { Name := name, Type_ := type, Position := node.StartPoint } := by
  have h1 : ¬ (node.Type_ = "function_declaration" ∨ node.Type_ = "function_signature") := by
    rw [hk]
    decide
  unfold ParseFunctionNode
  rw [if_neg h1, if_pos hk, hn, ht, hv]
  simp only [Option.some_bind, Option.isSome_some, Option.isSome_none, if_true,
    Bool.false_eq_true, if_false]
  cases nameNode.Content sourceCode <;> cases ParseTypeNode valueNode sourceCode <;> rfl

/-- The third `case` of `ParseFunctionNode`, with the fields of the node and the name of
its grandparent at hand. -/
theorem ParseFunctionNode_method_eq {node owner classNameNode nameNode params returnType : Node}
    (ancestors : List Node) (sourceCode : GoString)
    (hk : node.Type_ = "method_definition" ∨ node.Type_ = "method_signature")
    (hg : ancestors.get? 1 = some owner)
    (hc : owner.ChildByFieldName "name" = some classNameNode)
    (hn : node.ChildByFieldName "name" = some nameNode)
    (hp : node.ChildByFieldName "parameters" = some params)
    (hr : node.ChildByFieldName "return_type" = some returnType) :
    ParseFunctionNode node ancestors sourceCode =
      (classNameNode.Content sourceCode).bind fun className =>
      (nameNode.Content sourceCode).bind fun name =>
      (ParseParamsNode params sourceCode).bind fun strParams =>
      (ParseTypeNode returnType sourceCode).bind fun strReturnType =>
        some { Name := className ++ ".".toList ++ name
               Type_ := "(".toList ++ strParams ++ ") -> ".toList ++ strReturnType
               Position := node.StartPoint } := by
  have h1 : ¬ (node.Type_ = "function_declaration" ∨ node.Type_ = "function_signature") := by
    rcases hk with hk | hk <;> rw [hk] <;> decide
  have h2 : ¬ node.Type_ = "variable_declarator" := by
    rcases hk with hk | hk <;> rw [hk] <;> decide
  unfold ParseFunctionNode
  rw [if_neg h1, if_neg h2, if_pos hk, hg, hn, hp, hr]
  simp only [Option.some_bind, hc]
  cases classNameNode.Content sourceCode <;> cases nameNode.Content sourceCode <;>
    cases ParseParamsNode params sourceCode <;>
    cases ParseTypeNode returnType sourceCode <;> rfl

/-! ## The scenarios, evaluated -/

theorem addParams_eval :
    ParseParamsNode addParams addSource = some "number, number".toList := by
  refine @ParseParamsNode_of_loop _ _ _ ["number".toList, "number".toList] ?_ rfl
  refine ParseParams_skip (by decide) (by decide) ?_
  refine ParseParams_required rfl rfl (ParseTypeNode_simple rfl (by decide) rfl rfl) ?_
  refine ParseParams_skip (by decide) (by decide) ?_
  refine ParseParams_required rfl rfl (ParseTypeNode_simple rfl (by decide) rfl rfl) ?_
  exact ParseParams_skip (by decide) (by decide) (ParseParams_nil _)

theorem addReturn_eval : ParseTypeNode addReturn addSource = some "number".toList :=
  ParseTypeNode_simple rfl (by decide) rfl rfl

theorem fooParams_eval : ParseParamsNode fooParams fooSource = some "string".toList := by
  refine @ParseParamsNode_of_loop _ _ _ ["string".toList] ?_ rfl
  refine ParseParams_skip (by decide) (by decide) ?_
  refine ParseParams_required rfl rfl (ParseTypeNode_simple rfl (by decide) rfl rfl) ?_
  exact ParseParams_skip (by decide) (by decide) (ParseParams_nil _)

theorem fooReturn_eval : ParseTypeNode fooReturn fooSource = some "void".toList :=
  ParseTypeNode_simple rfl (by decide) rfl rfl

theorem fType_eval : ParseTypeNode fType fSource = some "(number) -> string".toList := by
  refine ParseTypeNode_function rfl (by decide) ?_
  refine @ParseFunctionTypeNode_fields _ _ _ _ "number".toList "string".toList _ rfl rfl ?_
    (ParseTypeNode_simple rfl (by decide) rfl rfl) rfl
  refine @ParseParamsNode_of_loop _ _ _ ["number".toList] ?_ rfl
  refine ParseParams_skip (by decide) (by decide) ?_
  refine ParseParams_required rfl rfl (ParseTypeNode_simple rfl (by decide) rfl rfl) ?_
  exact ParseParams_skip (by decide) (by decide) (ParseParams_nil _)

theorem fDeclarator_eval (ancestors : List Node) :
    ParseFunctionNode fDeclarator ancestors fSource = some fDeclaration := by
  rw [@ParseFunctionNode_variable_type_eq fDeclarator fName fType ancestors fSource rfl rfl rfl,
    fType_eval]
  rfl

theorem spacedObjectType_eval :
    ParseTypeNode spacedObjectType spacedSource = some "\x7b a  number \x7d".toList :=
  ParseTypeNode_simple rfl (by decide) rfl rfl

theorem spacedParams_eval :
    ParseParamsNode spacedParams spacedSource = some "\x7b a  number \x7d".toList := by
  refine @ParseParamsNode_of_loop _ _ _ ["\x7b a  number \x7d".toList] ?_ rfl
  refine ParseParams_skip (by decide) (by decide) ?_
  refine ParseParams_required rfl rfl (ParseTypeNode_simple rfl (by decide) rfl rfl) ?_
  exact ParseParams_skip (by decide) (by decide) (ParseParams_nil _)

theorem spacedReturn_eval : ParseTypeNode spacedReturn spacedSource = some "void".toList :=
  ParseTypeNode_simple rfl (by decide) rfl rfl

theorem plainParams_eval :
    ParseParamsNode plainParams plainSource = some "\x7b a number \x7d".toList := by
  refine @ParseParamsNode_of_loop _ _ _ ["\x7b a number \x7d".toList] ?_ rfl
  refine ParseParams_skip (by decide) (by decide) ?_
  refine ParseParams_required rfl rfl (ParseTypeNode_simple rfl (by decide) rfl rfl) ?_
  exact ParseParams_skip (by decide) (by decide) (ParseParams_nil _)

theorem plainReturn_eval : ParseTypeNode plainReturn plainSource = some "void".toList :=
  ParseTypeNode_simple rfl (by decide) rfl rfl

/-! ## The claims on extraction -/

/-- C4: on a `function_declaration` or `function_signature` node with the fields `name`,
`parameters` and `return_type`, `ParseFunctionNode` returns, as soon as the two renderings
return, the declaration with the text of the name, the type
`"(" + ParseParamsNode(parameters) + ") -> " + ParseTypeNode(return_type)` and the start point
of the node; for `function add(a: number, b: number): number { return a+b }` that is `add`
with the type `(number, number) -> number`. -/
theorem ParseFunctionNode_function :
    (∀ (node nameNode params returnType : Node) (ancestors : List Node) (sourceCode : GoString),
      (node.Type_ = "function_declaration" ∨ node.Type_ = "function_signature") →
      node.ChildByFieldName "name" = some nameNode →
      node.ChildByFieldName "parameters" = some params →
      node.ChildByFieldName "return_type" = some returnType →
      ParseFunctionNode node ancestors sourceCode =
        (nameNode.Content sourceCode).bind fun name =>
        (ParseParamsNode params sourceCode).bind fun strParams =>
        (ParseTypeNode returnType sourceCode).bind fun strReturnType =>
          some { Name := name
                 Type_ := "(".toList ++ strParams ++ ") -> ".toList ++ strReturnType
                 Position := node.StartPoint })
    ∧ ParseFunctionNode addNode [addProgram] addSource
        = some { Name := "add".toList
                 Type_ := "(number, number) -> number".toList
                 Position := ⟨0, 0⟩ } := by
  refine ⟨fun node nameNode params returnType ancestors sourceCode hk hn hp hr =>
    ParseFunctionNode_function_eq ancestors sourceCode hk hn hp hr, ?_⟩
  rw [@ParseFunctionNode_function_eq addNode addName addParams addReturn [addProgram] addSource
    (Or.inl rfl) rfl rfl rfl, addParams_eval, addReturn_eval]
  rfl

/-- The general part of C4 at the node of `addSource`. -/
theorem ParseFunctionNode_function_witness :
    (addNode.Type_ = "function_declaration" ∨ addNode.Type_ = "function_signature")
    ∧ addNode.ChildByFieldName "name" = some addName
    ∧ addNode.ChildByFieldName "parameters" = some addParams
    ∧ addNode.ChildByFieldName "return_type" = some addReturn
    ∧ ParseFunctionNode addNode [addProgram] addSource =
        (addName.Content addSource).bind fun name =>
        (ParseParamsNode addParams addSource).bind fun strParams =>
        (ParseTypeNode addReturn addSource).bind fun strReturnType =>
          some { Name := name
                 Type_ := "(".toList ++ strParams ++ ") -> ".toList ++ strReturnType
                 Position := addNode.StartPoint } :=
  ⟨Or.inl rfl, rfl, rfl, rfl,
    ParseFunctionNode_function.1 addNode addName addParams addReturn [addProgram] addSource
      (Or.inl rfl) rfl rfl rfl⟩

/-- C5: on a `method_definition` or `method_signature` node whose grandparent has a `name`
field, `ParseFunctionNode` returns, as soon as the two renderings return, the declaration
named `<grandparent name>.<method name>` with the type
`"(" + ParseParamsNode(parameters) + ") -> " + ParseTypeNode(return_type)`; for
`class Foo { bar(x: string): void {} }` that is `Foo.bar` with the type `(string) -> void`. -/
theorem ParseFunctionNode_method :
    (∀ (node owner classNameNode nameNode params returnType : Node) (ancestors : List Node)
        (sourceCode : GoString),
      (node.Type_ = "method_definition" ∨ node.Type_ = "method_signature") →
      ancestors.get? 1 = some owner →
      owner.ChildByFieldName "name" = some classNameNode →
      node.ChildByFieldName "name" = some nameNode →
      node.ChildByFieldName "parameters" = some params →
      node.ChildByFieldName "return_type" = some returnType →
      ParseFunctionNode node ancestors sourceCode =
        (classNameNode.Content sourceCode).bind fun className =>
        (nameNode.Content sourceCode).bind fun name =>
        (ParseParamsNode params sourceCode).bind fun strParams =>
        (ParseTypeNode returnType sourceCode).bind fun strReturnType =>
          some { Name := className ++ ".".toList ++ name
                 Type_ := "(".toList ++ strParams ++ ") -> ".toList ++ strReturnType
                 Position := node.StartPoint })
    ∧ ParseFunctionNode fooMethod [fooClassBody, fooClass, fooProgram] fooSource
        = some { Name := "Foo.bar".toList
                 Type_ := "(string) -> void".toList
                 Position := ⟨0, 12⟩ } := by
  refine ⟨fun node owner classNameNode nameNode params returnType ancestors sourceCode
      hk hg hc hn hp hr => ParseFunctionNode_method_eq ancestors sourceCode hk hg hc hn hp hr, ?_⟩
  rw [@ParseFunctionNode_method_eq fooMethod fooClass fooClassName fooName fooParams fooReturn
    [fooClassBody, fooClass, fooProgram] fooSource (Or.inl rfl) rfl rfl rfl rfl rfl,
    fooParams_eval, fooReturn_eval]
  rfl

/-- The general part of C5 at the method of `fooSource`. -/
theorem ParseFunctionNode_method_witness :
    (fooMethod.Type_ = "method_definition" ∨ fooMethod.Type_ = "method_signature")
    ∧ [fooClassBody, fooClass, fooProgram].get? 1 = some fooClass
    ∧ fooClass.Type_ = "class_declaration"
    ∧ fooClass.ChildByFieldName "name" = some fooClassName
    ∧ ParseFunctionNode fooMethod [fooClassBody, fooClass, fooProgram] fooSource =
        (fooClassName.Content fooSource).bind fun className =>
        (fooName.Content fooSource).bind fun name =>
        (ParseParamsNode fooParams fooSource).bind fun strParams =>
        (ParseTypeNode fooReturn fooSource).bind fun strReturnType =>
          some { Name := className ++ ".".toList ++ name
                 Type_ := "(".toList ++ strParams ++ ") -> ".toList ++ strReturnType
                 Position := fooMethod.StartPoint } :=
  ⟨Or.inl rfl, rfl, rfl, rfl,
    ParseFunctionNode_method.1 fooMethod fooClass fooClassName fooName fooParams fooReturn
      [fooClassBody, fooClass, fooProgram] fooSource (Or.inl rfl) rfl rfl rfl rfl rfl⟩

/-- C6: on a `variable_declarator` node with a name, `ParseFunctionNode` renders the `type`
field whenever there is one, whatever the `value` field is, and the `value` field only when
there is no `type` field; the declaration returned, as soon as that rendering returns, bears
the name of the binding.  For `const f: (x: number) => string = x => String(x);` it is `f`
with the type `(number) -> string`. -/
theorem ParseFunctionNode_variable :
    (∀ (node nameNode typeNode : Node) (ancestors : List Node) (sourceCode : GoString),
      node.Type_ = "variable_declarator" →
      node.ChildByFieldName "name" = some nameNode →
      node.ChildByFieldName "type" = some typeNode →
      ParseFunctionNode node ancestors sourceCode =
        (nameNode.Content sourceCode).bind fun name =>
        (ParseTypeNode typeNode sourceCode).bind fun type =>
          some { Name := name, Type_ := type, Position := node.StartPoint })
    ∧ (∀ (node nameNode valueNode : Node) (ancestors : List Node) (sourceCode : GoString),
      node.Type_ = "variable_declarator" →
      node.ChildByFieldName "name" = some nameNode →
      node.ChildByFieldName "type" = none →
      node.ChildByFieldName "value" = some valueNode →
      ParseFunctionNode node ancestors sourceCode =
        (nameNode.Content sourceCode).bind fun name =>
        (ParseTypeNode valueNode sourceCode).bind fun type =>
          some { Name := name, Type_ := type, Position := node.StartPoint })
    ∧ ParseFunctionNode fDeclarator [fLexical, fProgram] fSource
        = some { Name := "f".toList
                 Type_ := "(number) -> string".toList
                 Position := ⟨0, 6⟩ } := by
  refine ⟨?_, ?_, fDeclarator_eval [fLexical, fProgram]⟩
  · intro node nameNode typeNode ancestors sourceCode hk hn ht
    exact ParseFunctionNode_variable_type_eq ancestors sourceCode hk hn ht
  · intro node nameNode valueNode ancestors sourceCode hk hn ht hv
    exact ParseFunctionNode_variable_value_eq ancestors sourceCode hk hn ht hv

/-- C6 at the declarator of `fSource`, which has both a `type` and a `value` field, and at
the declarator of `kSource`, which has a `value` field only. -/
theorem ParseFunctionNode_variable_witness :
    (fDeclarator.Type_ = "variable_declarator"
      ∧ fDeclarator.ChildByFieldName "name" = some fName
      ∧ fDeclarator.ChildByFieldName "type" = some fType
      ∧ fDeclarator.ChildByFieldName "value" = some fValue
      ∧ ParseFunctionNode fDeclarator [fLexical, fProgram] fSource =
          (fName.Content fSource).bind fun name =>
          (ParseTypeNode fType fSource).bind fun type =>
            some { Name := name, Type_ := type, Position := fDeclarator.StartPoint })
    ∧ (kDeclarator.Type_ = "variable_declarator"
      ∧ kDeclarator.ChildByFieldName "name" = some kName
      ∧ kDeclarator.ChildByFieldName "type" = none
      ∧ kDeclarator.ChildByFieldName "value" = some kValue
      ∧ ParseFunctionNode kDeclarator [kLexical, kProgram] kSource =
          (kName.Content kSource).bind fun name =>
          (ParseTypeNode kValue kSource).bind fun type =>
            some { Name := name, Type_ := type, Position := kDeclarator.StartPoint }) :=
  ⟨⟨rfl, rfl, rfl, rfl,
      ParseFunctionNode_variable.1 fDeclarator fName fType [fLexical, fProgram] fSource
        rfl rfl rfl⟩,
    ⟨rfl, rfl, rfl, rfl,
      ParseFunctionNode_variable.2.1 kDeclarator kName kValue [kLexical, kProgram] kSource
        rfl rfl rfl rfl⟩⟩

theorem ParseFileLoop_cons {sourceCode : GoString} {m : QueryMatch} {capture : QueryCapture}
    {rest : List QueryCapture} {declaration : FunctionDeclaration}
    (ms : List QueryMatch) (declarations : List FunctionDeclaration)
    (hc : m.Captures = capture :: rest)
    (hd : ParseFunctionNode capture.Node capture.ancestors sourceCode = some declaration) :
    ParseFileLoop sourceCode (m :: ms) declarations
      = ParseFileLoop sourceCode ms (declarations ++ [declaration]) := by
  have hk : capture.Node.Type_ = "method_definition" ∨ capture.Node.Type_ = "method_signature"
      ∨ capture.Node.Type_ = "function_declaration"
      ∨ capture.Node.Type_ = "function_signature"
      ∨ capture.Node.Type_ = "variable_declarator" := by
    unfold ParseFunctionNode at hd
    split at hd
    · rename_i h
      rcases h with h | h
      · exact Or.inr (Or.inr (Or.inl h))
      · exact Or.inr (Or.inr (Or.inr (Or.inl h)))
    · split at hd
      · rename_i h
        exact Or.inr (Or.inr (Or.inr (Or.inr h)))
      · split at hd
        · rename_i h
          rcases h with h | h
          · exact Or.inl h
          · exact Or.inr (Or.inl h)
        · cases hd
  rw [ParseFileLoop, hc]
  simp only [if_pos hk, hd]

theorem ParseFileLoop_all {sourceCode : GoString} (queryMatches : List QueryMatch)
    (found declarations : List FunctionDeclaration)
    (h : List.Forall₂
      (fun m d => ∃ capture rest, m.Captures = capture :: rest
        ∧ ParseFunctionNode capture.Node capture.ancestors sourceCode = some d)
      queryMatches found) :
    ParseFileLoop sourceCode queryMatches declarations = some (declarations ++ found) := by
  induction h generalizing declarations with
  | nil => simp [ParseFileLoop]
  | cons hmd _ ih =>
    obtain ⟨capture, rest, hc, hd⟩ := hmd
    rw [ParseFileLoop_cons _ _ hc hd, ih, List.append_assoc, List.singleton_append]

/-- C7, as amended: `ParseFile` yields one declaration per query match, in match order: when
the first captured node of every match is rendered by `ParseFunctionNode`, the result lists
these renderings match by match, so it has as many records as there are matches. -/
theorem ParseFile_one_per_match (sourceCode : GoString) (queryMatches : List QueryMatch)
    (found : List FunctionDeclaration)
    (h : List.Forall₂
      (fun m d => ∃ capture rest, m.Captures = capture :: rest
        ∧ ParseFunctionNode capture.Node capture.ancestors sourceCode = some d)
      queryMatches found) :
    ParseFile sourceCode queryMatches = some found ∧ found.length = queryMatches.length := by
  refine ⟨?_, h.length_eq.symm⟩
  unfold ParseFile
  rw [ParseFileLoop_all queryMatches found [] h, List.nil_append]

/-- The amended C7 at the two matches of the query on `fSource`. -/
theorem ParseFile_one_per_match_witness :
    ParseFile fSource fMatches = some [fDeclaration, fDeclaration]
      ∧ [fDeclaration, fDeclaration].length = fMatches.length :=
  ParseFile_one_per_match fSource fMatches [fDeclaration, fDeclaration]
    (List.Forall₂.cons ⟨_, _, rfl, fDeclarator_eval _⟩
      (List.Forall₂.cons ⟨_, _, rfl, fDeclarator_eval _⟩ List.Forall₂.nil))

/-- C7 fails on `const f: (x: number) => string = x => String(x);`: the declarator is the
node captured by each of the two matches, and `ParseFile` returns two records for it. -/
theorem ParseFile_reports_twice :
    (∀ m ∈ fMatches, ∃ rest, m.Captures = ⟨fDeclarator, [fLexical, fProgram]⟩ :: rest)
    ∧ ParseFile fSource fMatches = some [fDeclaration, fDeclaration]
    ∧ fDeclaration.Name = "f".toList
    ∧ fDeclaration.Type_ = "(number) -> string".toList := by
  refine ⟨?_, ?_, rfl, rfl⟩
  · intro m hm
    simp only [fMatches, List.mem_cons, List.mem_singleton, List.not_mem_nil, or_false,
      or_self] at hm
    subst hm
    exact ⟨[], rfl⟩
  · unfold ParseFile
    rw [ParseFileLoop_all fMatches [fDeclaration, fDeclaration] []
      (List.Forall₂.cons ⟨_, _, rfl, fDeclarator_eval _⟩
        (List.Forall₂.cons ⟨_, _, rfl, fDeclarator_eval _⟩ List.Forall₂.nil))]
    rfl

/-! ## The claims on canonical strings -/

/-- Re-canonicalizing a canonical string `c = NormalizeParam(NormalizeContent(s))` that
contains no colon and no two consecutive spaces yields `c` again. -/
theorem canonical_idempotent (s c : GoString) (hc : c = NormalizeParam (NormalizeContent s))
    (hcolon : ':' ∉ c) (hrun : ¬ "  ".toList <:+: c) :
    NormalizeParam (NormalizeContent c) = c := by
  have hnl : '\n' ∉ c := by
    intro h
    rw [hc] at h
    exact not_newline_mem_NormalizeContent s
      ((ReplaceFirstColon_sublist _).subset ((TrimSpace_sublist _).subset h))
  have h1 : ReplaceAllNewlines c = c := by
    unfold ReplaceAllNewlines
    rw [List.filter_eq_self]
    intro a ha
    have : a ≠ '\n' := fun hn => hnl (hn ▸ ha)
    simpa using this
  have h2 : NormalizeContent c = c := by
    unfold NormalizeContent
    rw [h1]
    exact ReplaceSpaceRuns_of_no_run c false (fun hb => by cases hb) hrun
  unfold NormalizeParam
  rw [h2, ReplaceFirstColon_of_not_mem c hcolon]
  rw [hc]
  exact TrimSpace_idempotent _

/-- The text `: number` of an annotation has the canonical string `number`, which
re-canonicalizes to itself. -/
theorem canonical_idempotent_witness :
    "number".toList = NormalizeParam (NormalizeContent ": number".toList)
    ∧ ':' ∉ "number".toList ∧ ¬ "  ".toList <:+: "number".toList
    ∧ NormalizeParam (NormalizeContent "number".toList) = "number".toList :=
  ⟨by decide, by decide, by decide,
    canonical_idempotent ": number".toList "number".toList (by decide) (by decide) (by decide)⟩

/-- C10 fails on the parameter type of `function q(p: { a: number, b: string }): void {}`:
the `object_type` node renders as `{ a number, b: string }`, and canonicalizing that string
again removes the next colon, so the result is `{ a number, b string }` and not the
canonical string itself. -/
theorem canonical_not_idempotent :
    pairObjectType.Type_ ∈ simpleCategories
    ∧ pairObjectType.Content pairSource = some "\x7b a: number, b: string \x7d".toList
    ∧ ParseTypeNode pairObjectType pairSource = some "\x7b a number, b: string \x7d".toList
    ∧ NormalizeParam (NormalizeContent "\x7b a: number, b: string \x7d".toList)
        = "\x7b a number, b: string \x7d".toList
    ∧ NormalizeParam (NormalizeContent "\x7b a number, b: string \x7d".toList)
        = "\x7b a number, b string \x7d".toList
    ∧ ¬ (NormalizeParam (NormalizeContent
          (NormalizeParam (NormalizeContent "\x7b a: number, b: string \x7d".toList)))
        = NormalizeParam (NormalizeContent "\x7b a: number, b: string \x7d".toList)) :=
  ⟨by decide, rfl, ParseTypeNode_simple rfl (by decide) rfl rfl, by decide, by decide,
    by decide⟩

/-- C9 fails on the parameter type of `function h(p: { a: number }): void {}`: the text of
the `object_type` node does not begin with a colon, yet its rendering has lost the colon
after `a`, and so has the type of the declaration. -/
theorem simple_type_loses_inner_colon :
    plainObjectType.Type_ ∈ simpleCategories
    ∧ plainObjectType.Content plainSource = some "\x7b a: number \x7d".toList
    ∧ ParseTypeNode plainObjectType plainSource = some "\x7b a number \x7d".toList
    ∧ (∀ ancestors : List Node, ParseFunctionNode plainFunction ancestors plainSource
        = some { Name := "h".toList
                 Type_ := "(\x7b a number \x7d) -> void".toList
                 Position := ⟨0, 0⟩ }) := by
  refine ⟨by decide, rfl, ParseTypeNode_simple rfl (by decide) rfl rfl, fun ancestors => ?_⟩
  rw [@ParseFunctionNode_function_eq plainFunction plainName plainParams plainReturn
    ancestors plainSource (Or.inl rfl) rfl rfl rfl, plainParams_eval, plainReturn_eval]
  rfl

/-- C8 fails on `function g(p: { a : number }): void {}`: the rendering of the parameter
type, and with it the type of the declaration, has two consecutive spaces where the colon
stood. -/
theorem canonical_string_with_two_spaces :
    ParseTypeNode spacedObjectType spacedSource = some "\x7b a  number \x7d".toList
    ∧ "  ".toList <:+: "\x7b a  number \x7d".toList
    ∧ (∀ ancestors : List Node, ParseFunctionNode spacedFunction ancestors spacedSource
        = some { Name := "g".toList
                 Type_ := "(\x7b a  number \x7d) -> void".toList
                 Position := ⟨0, 0⟩ })
    ∧ "  ".toList <:+: "(\x7b a  number \x7d) -> void".toList := by
  refine ⟨spacedObjectType_eval, by decide, fun ancestors => ?_, by decide⟩
  rw [@ParseFunctionNode_function_eq spacedFunction spacedName spacedParams spacedReturn
    ancestors spacedSource (Or.inl rfl) rfl rfl rfl, spacedParams_eval, spacedReturn_eval]
  rfl

/-! ## The claims on `NormalizeContent`, `ComputeDistance` and `String` -/

/-- The replacement of the runs leaves no two consecutive spaces, and after a space that
has already been written (`inRun`) it does not begin with a space. -/
theorem ReplaceSpaceRuns_no_run (s : GoString) (inRun : Bool) :
    ¬ "  ".toList <:+: ReplaceSpaceRuns inRun s
      ∧ (inRun = true → (ReplaceSpaceRuns inRun s).head? ≠ some ' ') := by
  induction s generalizing inRun with
  | nil =>
    refine ⟨?_, fun _ => by simp [ReplaceSpaceRuns]⟩
    simp only [ReplaceSpaceRuns]
    decide
  | cons c cs ih =>
    unfold ReplaceSpaceRuns
    split
    · rename_i hc
      split
      · rename_i hrun
        exact ⟨(ih true).1, fun _ => (ih true).2 rfl⟩
      · rename_i hrun
        refine ⟨?_, fun h => absurd h hrun⟩
        intro hinf
        rcases List.infix_cons_iff.mp hinf with hpre | hin
        · obtain ⟨t, ht⟩ := hpre
          have h2 : (ReplaceSpaceRuns true cs).head? = some ' ' := by
            simp only [String.toList, List.cons_append, List.cons.injEq, true_and] at ht
            rw [← ht]
            rfl
          exact (ih true).2 rfl h2
        · exact (ih true).1 hin
    · rename_i hc
      refine ⟨?_, fun _ => by simpa using hc⟩
      intro hinf
      rcases List.infix_cons_iff.mp hinf with hpre | hin
      · obtain ⟨t, ht⟩ := hpre
        simp only [String.toList, List.cons_append, List.cons.injEq] at ht
        exact hc ht.1.symm
      · exact (ih false).1 hin

/-- C20: for every string `s`, `NormalizeContent(s)` has no newline and no two consecutive
spaces, and normalizing it again changes nothing. -/
theorem NormalizeContent_idempotent (s : GoString) :
    '\n' ∉ NormalizeContent s
      ∧ ¬ "  ".toList <:+: NormalizeContent s
      ∧ NormalizeContent (NormalizeContent s) = NormalizeContent s := by
  have hnl := not_newline_mem_NormalizeContent s
  have hrun : ¬ "  ".toList <:+: NormalizeContent s := (ReplaceSpaceRuns_no_run _ false).1
  refine ⟨hnl, hrun, ?_⟩
  have h1 : ReplaceAllNewlines (NormalizeContent s) = NormalizeContent s := by
    unfold ReplaceAllNewlines
    rw [List.filter_eq_self]
    intro a ha
    have : a ≠ '\n' := fun hn => hnl (hn ▸ ha)
    simpa using this
  show ReplaceSpaceRuns false (ReplaceAllNewlines (NormalizeContent s)) = NormalizeContent s
  rw [h1]
  exact ReplaceSpaceRuns_of_no_run _ false (fun hb => by cases hb) hrun

theorem decimalValue_digitChar (k : Nat) (hk : k < 10) :
    (Nat.digitChar k).toNat - '0'.toNat = k := by
  interval_cases k <;> rfl

/-- Reading the digits that `Nat.toDigits` writes for `n` in front of `ds` is reading `ds`
from the value `n`. -/
theorem foldl_toDigitsCore (fuel n : Nat) (ds : List Char) (h : n < fuel) :
    (Nat.toDigitsCore 10 fuel n ds).foldl
        (fun value c => 10 * value + (c.toNat - '0'.toNat)) 0
      = ds.foldl (fun value c => 10 * value + (c.toNat - '0'.toNat)) n := by
  induction fuel generalizing n ds with
  | zero => exact absurd h (Nat.not_lt_zero _)
  | succ fuel ih =>
    unfold Nat.toDigitsCore
    simp only
    split
    · rename_i h0
      have hn : n % 10 = n := by omega
      rw [List.foldl_cons, decimalValue_digitChar _ (Nat.mod_lt _ (by decide)), hn]
      simp
    · rename_i h0
      rw [ih (n / 10) _ (by omega), List.foldl_cons,
        decimalValue_digitChar _ (Nat.mod_lt _ (by decide))]
      congr 1
      omega

theorem decimalValue_repr (n : Nat) : decimalValue (Nat.repr n).toList = n := by
  show (Nat.toDigitsCore 10 (n + 1) n []).foldl _ 0 = n
  rw [foldl_toDigitsCore (n + 1) n [] (Nat.lt_succ_self n)]
  rfl

/-- C17: the line of a declaration `d` for the file path `p` is `p`, a colon, the decimal
digits of the row of `d`, a semicolon and two spaces, the name, ` :: ` and the type; the
digits denote the zero-based row itself. -/
theorem String_format (d : FunctionDeclaration) (p : GoString) :
    d.String p = p ++ ":".toList ++ (Nat.repr d.Position.Row).toList ++ ";  ".toList
        ++ d.Name ++ " :: ".toList ++ d.Type_
      ∧ decimalValue (Nat.repr d.Position.Row).toList = d.Position.Row
      ∧ addDeclaration.String "a.ts".toList
          = "a.ts:0;  add :: (number, number) -> number".toList
      ∧ (FunctionDeclaration.mk "Foo.bar".toList "(string) -> void".toList ⟨41, 2⟩).String
          "src/foo.ts".toList = "src/foo.ts:41;  Foo.bar :: (string) -> void".toList :=
  ⟨rfl, decimalValue_repr _, by decide, by decide⟩

theorem levenshtein_nonneg (a b : GoString) : 0 ≤ levenshtein.ComputeDistance a b := by
  induction a, b using levenshtein.ComputeDistance.induct with
  | case1 b => simp [levenshtein.ComputeDistance]
  | case2 a h => simp [levenshtein.ComputeDistance]
  | case3 a x b ih =>
    rw [levenshtein.ComputeDistance, if_pos rfl]
    exact ih
  | case4 x a y b hxy ih1 ih2 ih3 =>
    rw [levenshtein.ComputeDistance, if_neg hxy]
    omega

theorem levenshtein_eq_zero_iff (a b : GoString) :
    levenshtein.ComputeDistance a b = 0 ↔ a = b := by
  induction a, b using levenshtein.ComputeDistance.induct with
  | case1 b =>
    cases b <;> simp [levenshtein.ComputeDistance]
    omega
  | case2 a h =>
    cases a with
    | nil => simp [levenshtein.ComputeDistance]
    | cons x a =>
      simp [levenshtein.ComputeDistance]
      omega
  | case3 a x b ih =>
    rw [levenshtein.ComputeDistance, if_pos rfl, ih]
    simp
  | case4 x a y b hxy ih1 ih2 ih3 =>
    rw [levenshtein.ComputeDistance, if_neg hxy]
    have h1 := levenshtein_nonneg a b
    have h2 := levenshtein_nonneg a (y :: b)
    have h3 := levenshtein_nonneg (x :: a) b
    constructor
    · intro h
      omega
    · intro h
      exact absurd (List.cons.inj h).1 hxy

/-- C16: with the Levenshtein distance of the library, the distance of a declaration to the
query is `0` exactly when its type is the query, and it is never negative; so whenever some
declaration has the query as its type, the first ranked declaration has the query as its
type, at distance `0`. -/
theorem rank_exact_first (declarations : List FunctionDeclaration) (query : GoString)
    (h : ∃ d ∈ declarations, d.Type_ = query) :
    (∀ d : FunctionDeclaration,
        (ComputeDistance levenshtein.ComputeDistance d query = 0 ↔ d.Type_ = query)
        ∧ 0 ≤ ComputeDistance levenshtein.ComputeDistance d query)
      ∧ ∃ first rest, rank levenshtein.ComputeDistance declarations query = first :: rest
          ∧ first.Type_ = query
          ∧ ComputeDistance levenshtein.ComputeDistance first query = 0 := by
  refine ⟨fun d => ⟨levenshtein_eq_zero_iff _ _, levenshtein_nonneg _ _⟩, ?_⟩
  obtain ⟨d0, hd0, hq⟩ := h
  have hperm := SliceStable_perm
    (fun di dj => decide (ComputeDistance levenshtein.ComputeDistance di query
      < ComputeDistance levenshtein.ComputeDistance dj query)) declarations
  have hsorted := SliceStable_sorted
    (fun d => ComputeDistance levenshtein.ComputeDistance d query) declarations
  have hmem : d0 ∈ rank levenshtein.ComputeDistance declarations query :=
    hperm.mem_iff.mpr hd0
  have hd0z : ComputeDistance levenshtein.ComputeDistance d0 query = 0 :=
    (levenshtein_eq_zero_iff _ _).mpr hq
  cases hr : rank levenshtein.ComputeDistance declarations query with
  | nil =>
    rw [hr] at hmem
    cases hmem
  | cons first rest =>
    have hfirst : ComputeDistance levenshtein.ComputeDistance first query = 0 := by
      have hnn : 0 ≤ ComputeDistance levenshtein.ComputeDistance first query :=
        levenshtein_nonneg _ _
      have hle : ComputeDistance levenshtein.ComputeDistance first query
          ≤ ComputeDistance levenshtein.ComputeDistance d0 query := by
        rw [hr] at hmem
        rcases List.mem_cons.mp hmem with heq | hrest
        · rw [heq]
        · have hs : (first :: rest).Pairwise (fun a b =>
              ComputeDistance levenshtein.ComputeDistance a query
                ≤ ComputeDistance levenshtein.ComputeDistance b query) := by
            rw [← hr]
            exact hsorted
          exact (List.pairwise_cons.mp hs).1 d0 hrest
      omega
    exact ⟨first, rest, rfl, (levenshtein_eq_zero_iff _ _).mp hfirst, hfirst⟩

/-- C16 at the declarations of `fSource` and `addSource` and the query
`(number, number) -> number`. -/
theorem rank_exact_first_witness :
    (∃ d ∈ [fDeclaration, addDeclaration], d.Type_ = "(number, number) -> number".toList)
      ∧ ∃ first rest,
          rank levenshtein.ComputeDistance [fDeclaration, addDeclaration]
              "(number, number) -> number".toList = first :: rest
          ∧ first.Type_ = "(number, number) -> number".toList
          ∧ ComputeDistance levenshtein.ComputeDistance first
              "(number, number) -> number".toList = 0 :=
  ⟨⟨addDeclaration, by simp, rfl⟩,
    (rank_exact_first [fDeclaration, addDeclaration] "(number, number) -> number".toList
      ⟨addDeclaration, by simp, rfl⟩).2⟩

/-! ## Further rules for the canonicalizer -/

theorem unwrapAnnotated_of_ne {node : Node} (h : node.Type_ ≠ "type_annotation") :
    unwrapAnnotated node = some node := by
  unfold unwrapAnnotated
  rw [if_neg h]

theorem ParseTypeNode_readonly {node n inner : Node} {sourceCode : GoString}
    {r : Option GoString}
    (hu : unwrapAnnotated node = some n) (hk : n.Type_ = "readonly_type")
    (hc : n.NamedChild 0 = some inner) (h : ParseTypeNode inner sourceCode = r) :
    ParseTypeNode node sourceCode = r := by
  have h1 : ¬ (n.Type_ = "function_type" ∨ n.Type_ = "arrow_function") := by
    rw [hk]
    decide
  have h2 : ¬ n.Type_ ∈ simpleCategories := by
    rw [hk]
    decide
  rw [ParseTypeNode_unfold, hu, Option.some_bind, if_neg h1, if_neg h2, if_pos hk, hc,
    Option.some_bind, h]

theorem ParseTypeNode_generic_eq {node n nameNode typeArgs : Node} (sourceCode : GoString)
    (hu : unwrapAnnotated node = some n) (hk : n.Type_ = "generic_type")
    (hn : n.ChildByFieldName "name" = some nameNode)
    (ha : n.ChildByFieldName "type_arguments" = some typeArgs) :
    ParseTypeNode node sourceCode =
      (nameNode.Content sourceCode).bind fun genericName =>
      (ParseTypeArgs typeArgs.children sourceCode).bind fun strArgs =>
        some (genericName ++ "<".toList ++ Join strArgs ", ".toList ++ ">".toList) := by
  have h1 : ¬ (n.Type_ = "function_type" ∨ n.Type_ = "arrow_function") := by
    rw [hk]
    decide
  have h2 : ¬ n.Type_ ∈ simpleCategories := by
    rw [hk]
    decide
  have h3 : ¬ n.Type_ = "readonly_type" := by
    rw [hk]
    decide
  rw [ParseTypeNode_unfold, hu, Option.some_bind, if_neg h1, if_neg h2, if_neg h3, if_pos hk,
    hn, ha, Option.some_bind, Option.some_bind]

theorem ParseTypeNode_generic_fields {node n nameNode typeArgs : Node}
    {sourceCode genericName r : GoString} {strArgs : List GoString}
    (hu : unwrapAnnotated node = some n) (hk : n.Type_ = "generic_type")
    (hn : n.ChildByFieldName "name" = some nameNode)
    (ha : n.ChildByFieldName "type_arguments" = some typeArgs)
    (hg : nameNode.Content sourceCode = some genericName)
    (hs : ParseTypeArgs typeArgs.children sourceCode = some strArgs)
    (hr : genericName ++ "<".toList ++ Join strArgs ", ".toList ++ ">".toList = r) :
    ParseTypeNode node sourceCode = some r := by
  rw [ParseTypeNode_generic_eq sourceCode hu hk hn ha, hg, Option.some_bind, hs,
    Option.some_bind, hr]

theorem ParseTypeNode_default {node n : Node} {sourceCode content : GoString}
    (hu : unwrapAnnotated node = some n) (hk : n.Type_ ∉ recognizedCategories)
    (hc : n.Content sourceCode = some content) :
    ParseTypeNode node sourceCode = some ("UNKNOWN: ".toList ++ NormalizeContent content) := by
  have hmem : ∀ k : String, k ∈ recognizedCategories → n.Type_ ≠ k := fun k hkin heq =>
    hk (heq ▸ hkin)
  have h1 : ¬ (n.Type_ = "function_type" ∨ n.Type_ = "arrow_function") := by
    rintro (h | h)
    · exact hmem _ (by decide) h
    · exact hmem _ (by decide) h
  have h2 : ¬ n.Type_ ∈ simpleCategories := fun h =>
    hk (List.mem_append_left _ (List.mem_append_right _ h))
  have h3 : ¬ n.Type_ = "readonly_type" := hmem _ (by decide)
  have h4 : ¬ n.Type_ = "generic_type" := hmem _ (by decide)
  rw [ParseTypeNode_unfold, hu, Option.some_bind, if_neg h1, if_neg h2, if_neg h3, if_neg h4,
    hc, Option.map_some']

theorem ParseTypeArgs_named {arg : Node} {rest : List Node} {sourceCode : GoString}
    {strArg : GoString} {strArgs : List GoString}
    (hn : arg.IsNamed = true) (hp : ParseTypeNode arg sourceCode = some strArg)
    (hr : ParseTypeArgs rest sourceCode = some strArgs) :
    ParseTypeArgs (arg :: rest) sourceCode = some (strArg :: strArgs) := by
  rw [ParseTypeArgs_cons, if_pos hn, hp, Option.some_bind, hr, Option.some_bind]

theorem ParseTypeArgs_skip {arg : Node} {rest : List Node} {sourceCode : GoString}
    {r : Option (List GoString)}
    (hn : arg.IsNamed = false) (h : ParseTypeArgs rest sourceCode = r) :
    ParseTypeArgs (arg :: rest) sourceCode = r := by
  rw [ParseTypeArgs_cons, if_neg (by simp [hn]), h]

/-- The loop over the type arguments returns exactly the renderings of the named
children, one for one and in order. -/
theorem ParseTypeArgs_iff (args : List Node) (sourceCode : GoString)
    (strArgs : List GoString) :
    ParseTypeArgs args sourceCode = some strArgs ↔
      List.Forall₂ (fun arg s => ParseTypeNode arg sourceCode = some s)
        (args.filter Node.IsNamed) strArgs := by
  induction args generalizing strArgs with
  | nil =>
    rw [ParseTypeArgs_nil, List.filter_nil, List.forall₂_nil_left_iff]
    exact ⟨fun h => (Option.some.inj h).symm, fun h => by rw [h]⟩
  | cons arg rest ih =>
    rw [ParseTypeArgs_cons]
    by_cases hn : arg.IsNamed = true
    · rw [if_pos hn, List.filter_cons_of_pos hn, List.forall₂_cons_left_iff]
      constructor
      · intro h
        cases hp : ParseTypeNode arg sourceCode with
        | none => rw [hp] at h; cases h
        | some s =>
          rw [hp, Option.some_bind] at h
          cases hr : ParseTypeArgs rest sourceCode with
          | none => rw [hr] at h; cases h
          | some ss =>
            rw [hr, Option.some_bind] at h
            exact ⟨s, ss, rfl, (ih ss).mp hr, (Option.some.inj h).symm⟩
      · rintro ⟨s, ss, hs, hss, rfl⟩
        rw [hs, Option.some_bind, (ih ss).mpr hss, Option.some_bind]
    · rw [if_neg hn, List.filter_cons_of_neg hn]
      exact ih strArgs

theorem ParseParams_cons_parameter (child : Node) (rest : List Node) (sourceCode : GoString)
    (h : isParameter child = true) :
    ParseParams (child :: rest) sourceCode =
      (ParseParam child sourceCode).bind fun strParam =>
      (ParseParams rest sourceCode).bind fun strParams => some (strParam :: strParams) := by
  rw [ParseParams_cons]
  unfold ParseParam
  by_cases hr : child.Type_ = "required_parameter"
  · rw [if_pos hr, if_pos hr]
    cases child.ChildByFieldName "type" <;> rfl
  · have ho : child.Type_ = "optional_parameter" := by
      simpa [isParameter, hr] using h
    rw [if_neg hr, if_pos ho, if_neg hr]
    cases child.Child 2 <;> rfl

theorem ParseParams_cons_other (child : Node) (rest : List Node) (sourceCode : GoString)
    (h : isParameter child = false) :
    ParseParams (child :: rest) sourceCode = ParseParams rest sourceCode := by
  have hr : ¬ child.Type_ = "required_parameter" := fun hr => by simp [isParameter, hr] at h
  have ho : ¬ child.Type_ = "optional_parameter" := fun ho => by simp [isParameter, ho] at h
  rw [ParseParams_cons, if_neg hr, if_neg ho]

/-- The loop of `ParseParamsNode` returns exactly the strings of the parameter children,
one for one and in order. -/
theorem ParseParams_iff (children : List Node) (sourceCode : GoString)
    (strParams : List GoString) :
    ParseParams children sourceCode = some strParams ↔
      List.Forall₂ (fun child s => ParseParam child sourceCode = some s)
        (children.filter isParameter) strParams := by
  induction children generalizing strParams with
  | nil =>
    rw [ParseParams_nil, List.filter_nil, List.forall₂_nil_left_iff]
    exact ⟨fun h => (Option.some.inj h).symm, fun h => by rw [h]⟩
  | cons child rest ih =>
    by_cases hp : isParameter child = true
    · rw [ParseParams_cons_parameter child rest sourceCode hp, List.filter_cons_of_pos hp,
        List.forall₂_cons_left_iff]
      constructor
      · intro h
        cases hc : ParseParam child sourceCode with
        | none => rw [hc] at h; cases h
        | some s =>
          rw [hc, Option.some_bind] at h
          cases hr : ParseParams rest sourceCode with
          | none => rw [hr] at h; cases h
          | some ss =>
            rw [hr, Option.some_bind] at h
            exact ⟨s, ss, rfl, (ih ss).mp hr, (Option.some.inj h).symm⟩
      · rintro ⟨s, ss, hs, hss, rfl⟩
        rw [hs, Option.some_bind, (ih ss).mpr hss, Option.some_bind]
    · have hp' : isParameter child = false := by simpa using hp
      rw [ParseParams_cons_other child rest sourceCode hp', List.filter_cons_of_neg hp]
      exact ih strParams

/-- The loop of `ParseParamsNode` depends on the parameter children only. -/
theorem ParseParams_filter (children : List Node) (sourceCode : GoString) :
    ParseParams children sourceCode = ParseParams (children.filter isParameter) sourceCode := by
  induction children with
  | nil => rfl
  | cons child rest ih =>
    by_cases hp : isParameter child = true
    · rw [List.filter_cons_of_pos hp, ParseParams_cons_parameter child rest sourceCode hp,
        ParseParams_cons_parameter child _ sourceCode hp, ih]
    · have hp' : isParameter child = false := by simpa using hp
      rw [List.filter_cons_of_neg hp, ParseParams_cons_other child rest sourceCode hp', ih]

/-! ## The further scenarios, evaluated -/

theorem kParams_eval : ParseParamsNode kParams kSource = some "number".toList := by
  refine @ParseParamsNode_of_loop _ _ _ ["number".toList] ?_ rfl
  refine ParseParams_skip (by decide) (by decide) ?_
  refine ParseParams_required rfl rfl (ParseTypeNode_simple rfl (by decide) rfl rfl) ?_
  exact ParseParams_skip (by decide) (by decide) (ParseParams_nil _)

theorem kReturn_eval : ParseTypeNode kReturn kSource = some "string".toList :=
  ParseTypeNode_simple rfl (by decide) rfl rfl

theorem kValue_eval : ParseTypeNode kValue kSource = some "(number) -> string".toList :=
  ParseTypeNode_function rfl (by decide)
    (@ParseFunctionTypeNode_fields kValue kParams kReturn kSource "number".toList
      "string".toList _ rfl rfl kParams_eval kReturn_eval rfl)

theorem sParams_eval : ParseParamsNode sParams sSource = some "number".toList := by
  refine @ParseParamsNode_of_loop _ _ _ ["number".toList] ?_ rfl
  refine ParseParams_skip (by decide) (by decide) ?_
  refine ParseParams_required rfl rfl (ParseTypeNode_simple rfl (by decide) rfl rfl) ?_
  exact ParseParams_skip (by decide) (by decide) (ParseParams_nil _)

theorem sReturn_eval : ParseTypeNode sReturn sSource = some "string".toList :=
  ParseTypeNode_simple rfl (by decide) rfl rfl

theorem mapArgs_eval :
    ParseTypeArgs mapArgs.children mapSource = some ["string".toList, "number".toList] := by
  refine ParseTypeArgs_skip rfl ?_
  refine ParseTypeArgs_named rfl (ParseTypeNode_simple rfl (by decide) rfl rfl) ?_
  refine ParseTypeArgs_skip rfl ?_
  refine ParseTypeArgs_named rfl (ParseTypeNode_simple rfl (by decide) rfl rfl) ?_
  exact ParseTypeArgs_skip rfl (ParseTypeArgs_nil _)

theorem mapType_eval :
    ParseTypeNode mapType mapSource = some "Map<string, number>".toList :=
  @ParseTypeNode_generic_fields mapType mapType mapName mapArgs mapSource "Map".toList _
    ["string".toList, "number".toList] rfl rfl rfl rfl rfl mapArgs_eval rfl

theorem tupleType_eval :
    ParseTypeNode tupleType tupleSource = some "UNKNOWN: [number, string]".toList :=
  (@ParseTypeNode_default tupleType tupleType tupleSource _ rfl (by decide) rfl).trans rfl

theorem tupleAnnotated_eval :
    ParseTypeNode tupleAnnotated tupleSource = some "UNKNOWN: [number, string]".toList :=
  (@ParseTypeNode_default tupleAnnotated tupleType tupleSource _ rfl (by decide) rfl).trans rfl

theorem tupleParams_eval :
    ParseParamsNode tupleParams tupleSource = some "UNKNOWN: [number, string]".toList := by
  refine @ParseParamsNode_of_loop _ _ _ ["UNKNOWN: [number, string]".toList] ?_ rfl
  refine ParseParams_skip (by decide) (by decide) ?_
  refine ParseParams_required rfl rfl tupleAnnotated_eval ?_
  exact ParseParams_skip (by decide) (by decide) (ParseParams_nil _)

theorem tupleReturn_eval : ParseTypeNode tupleReturn tupleSource = some "void".toList :=
  ParseTypeNode_simple rfl (by decide) rfl rfl

theorem oParams_eval : ParseParamsNode oParams oSource = some "number".toList := by
  refine @ParseParamsNode_of_loop _ _ _ ["number".toList] ?_ rfl
  refine ParseParams_skip (by decide) (by decide) ?_
  refine ParseParams_optional rfl rfl (ParseTypeNode_simple rfl (by decide) rfl rfl) ?_
  exact ParseParams_skip (by decide) (by decide) (ParseParams_nil _)

theorem rParams_eval : ParseParamsNode rParams rSource = some "number".toList := by
  refine @ParseParamsNode_of_loop _ _ _ ["number".toList] ?_ rfl
  refine ParseParams_skip (by decide) (by decide) ?_
  refine ParseParams_required rfl rfl (ParseTypeNode_simple rfl (by decide) rfl rfl) ?_
  exact ParseParams_skip (by decide) (by decide) (ParseParams_nil _)

theorem wArray_eval : ParseTypeNode wArray wSource = some "string[]".toList :=
  ParseTypeNode_simple rfl (by decide) rfl rfl

theorem wReadonly_eval : ParseTypeNode wReadonly wSource = some "string[]".toList :=
  @ParseTypeNode_readonly wReadonly wReadonly wArray wSource _ rfl rfl rfl wArray_eval

theorem wAnnotated_eval : ParseTypeNode wAnnotated wSource = some "string[]".toList :=
  @ParseTypeNode_readonly wAnnotated wReadonly wArray wSource _ rfl rfl rfl wArray_eval

/-! ## The claims on the cases of the canonicalizer -/

/-- C11: on a `function_type` or `arrow_function` node with a parameter list `P` and a
return type `R`, `ParseTypeNode` returns, as soon as the two renderings return, the arrow
form `"(" + ParseParamsNode(P) + ") -> " + ParseTypeNode(R)`; that is the type which
`ParseFunctionNode` gives a function declaration whose parameter list and return type
render as `P` and `R` do.  The arrow function of `kSource` renders as `(number) -> string`,
as the declaration of `sSource` does. -/
theorem ParseTypeNode_arrow_form :
    (∀ (node params returnType : Node) (sourceCode : GoString),
      (node.Type_ = "function_type" ∨ node.Type_ = "arrow_function") →
      node.ChildByFieldName "parameters" = some params →
      node.ChildByFieldName "return_type" = some returnType →
      ParseTypeNode node sourceCode =
        (ParseParamsNode params sourceCode).bind fun strParams =>
        (ParseTypeNode returnType sourceCode).bind fun strReturnType =>
          some ("(".toList ++ strParams ++ ") -> ".toList ++ strReturnType))
    ∧ (∀ (node params returnType : Node) (sourceCode : GoString)
        (declaration nameNode declParams declReturn : Node) (ancestors : List Node)
        (declSource name : GoString),
      (node.Type_ = "function_type" ∨ node.Type_ = "arrow_function") →
      node.ChildByFieldName "parameters" = some params →
      node.ChildByFieldName "return_type" = some returnType →
      (declaration.Type_ = "function_declaration"
        ∨ declaration.Type_ = "function_signature") →
      declaration.ChildByFieldName "name" = some nameNode →
      declaration.ChildByFieldName "parameters" = some declParams →
      declaration.ChildByFieldName "return_type" = some declReturn →
      nameNode.Content declSource = some name →
      ParseParamsNode declParams declSource = ParseParamsNode params sourceCode →
      ParseTypeNode declReturn declSource = ParseTypeNode returnType sourceCode →
      (ParseFunctionNode declaration ancestors declSource).map (fun d => d.Type_)
        = ParseTypeNode node sourceCode)
    ∧ ParseTypeNode kValue kSource = some "(number) -> string".toList
    ∧ (∀ ancestors : List Node,
        (ParseFunctionNode sNode ancestors sSource).map (fun d => d.Type_)
          = some "(number) -> string".toList) := by
  have hfun : ∀ (node params returnType : Node) (sourceCode : GoString),
      (node.Type_ = "function_type" ∨ node.Type_ = "arrow_function") →
      node.ChildByFieldName "parameters" = some params →
      node.ChildByFieldName "return_type" = some returnType →
      ParseTypeNode node sourceCode =
        (ParseParamsNode params sourceCode).bind fun strParams =>
        (ParseTypeNode returnType sourceCode).bind fun strReturnType =>
          some ("(".toList ++ strParams ++ ") -> ".toList ++ strReturnType) := by
    intro node params returnType sourceCode hk hp hr
    have hne : node.Type_ ≠ "type_annotation" := by
      rcases hk with hk | hk <;> rw [hk] <;> decide
    rw [ParseTypeNode_function (unwrapAnnotated_of_ne hne) hk rfl,
      ParseFunctionTypeNode_unfold, hp, hr, Option.some_bind, Option.some_bind]
  refine ⟨hfun, ?_, kValue_eval, fun ancestors => ?_⟩
  · intro node params returnType sourceCode declaration nameNode declParams declReturn
      ancestors declSource name hk hp hr hdk hdn hdp hdr hname hps hrs
    rw [hfun node params returnType sourceCode hk hp hr,
      ParseFunctionNode_function_eq ancestors declSource hdk hdn hdp hdr, hname,
      Option.some_bind, hps, hrs]
    cases ParseParamsNode params sourceCode with
    | none => rfl
    | some strParams =>
      cases ParseTypeNode returnType sourceCode <;> rfl
  · rw [@ParseFunctionNode_function_eq sNode sName sParams sReturn ancestors sSource
      (Or.inl rfl) rfl rfl rfl, sParams_eval, sReturn_eval]
    rfl

/-- C11 at the arrow function of `kSource` and the declaration of `sSource`. -/
theorem ParseTypeNode_arrow_form_witness :
    (kValue.Type_ = "function_type" ∨ kValue.Type_ = "arrow_function")
    ∧ kValue.ChildByFieldName "parameters" = some kParams
    ∧ kValue.ChildByFieldName "return_type" = some kReturn
    ∧ ParseTypeNode kValue kSource =
        ((ParseParamsNode kParams kSource).bind fun strParams =>
          (ParseTypeNode kReturn kSource).bind fun strReturnType =>
            some ("(".toList ++ strParams ++ ") -> ".toList ++ strReturnType))
    ∧ (ParseFunctionNode sNode [] sSource).map (fun d => d.Type_)
        = ParseTypeNode kValue kSource :=
  ⟨Or.inr rfl, rfl, rfl,
    ParseTypeNode_arrow_form.1 kValue kParams kReturn kSource (Or.inr rfl) rfl rfl,
    ParseTypeNode_arrow_form.2.1 kValue kParams kReturn kSource sNode sName sParams sReturn []
      sSource "s".toList (Or.inr rfl) rfl rfl (Or.inl rfl) rfl rfl rfl rfl
      (sParams_eval.trans kParams_eval.symm) (sReturn_eval.trans kReturn_eval.symm)⟩

/-- C12: on a `generic_type` node with the fields `name` and `type_arguments`,
`ParseTypeNode` returns the text of the name, `<`, the renderings of the named children of
`type_arguments` in order, joined by `", "`, and `>`; the children that are not named add
nothing, so there are as many rendered arguments as named children.  `Map<string, number>`
renders as itself. -/
theorem ParseTypeNode_generic :
    (∀ (node nameNode typeArgs : Node) (sourceCode : GoString),
      node.Type_ = "generic_type" →
      node.ChildByFieldName "name" = some nameNode →
      node.ChildByFieldName "type_arguments" = some typeArgs →
      ParseTypeNode node sourceCode =
        (nameNode.Content sourceCode).bind fun genericName =>
        (ParseTypeArgs typeArgs.children sourceCode).bind fun strArgs =>
          some (genericName ++ "<".toList ++ Join strArgs ", ".toList ++ ">".toList))
    ∧ (∀ (args : List Node) (sourceCode : GoString) (strArgs : List GoString),
      ParseTypeArgs args sourceCode = some strArgs ↔
        List.Forall₂ (fun arg s => ParseTypeNode arg sourceCode = some s)
          (args.filter Node.IsNamed) strArgs)
    ∧ (∀ (args : List Node) (sourceCode : GoString) (strArgs : List GoString),
      ParseTypeArgs args sourceCode = some strArgs →
        strArgs.length = (args.filter Node.IsNamed).length)
    ∧ ParseTypeNode mapType mapSource = some "Map<string, number>".toList := by
  refine ⟨?_, ParseTypeArgs_iff, ?_, mapType_eval⟩
  · intro node nameNode typeArgs sourceCode hk hn ha
    have hne : node.Type_ ≠ "type_annotation" := by
      rw [hk]
      decide
    exact ParseTypeNode_generic_eq sourceCode (unwrapAnnotated_of_ne hne) hk hn ha
  · intro args sourceCode strArgs h
    exact ((ParseTypeArgs_iff args sourceCode strArgs).mp h).length_eq.symm

/-- C12 at the type `Map<string, number>` of `mapSource`: two of the five children of
`type_arguments` are named, and two arguments are rendered. -/
theorem ParseTypeNode_generic_witness :
    mapType.Type_ = "generic_type"
    ∧ mapType.ChildByFieldName "name" = some mapName
    ∧ mapType.ChildByFieldName "type_arguments" = some mapArgs
    ∧ mapArgs.children.length = 5
    ∧ ParseTypeArgs mapArgs.children mapSource = some ["string".toList, "number".toList]
    ∧ ["string".toList, "number".toList].length = (mapArgs.children.filter Node.IsNamed).length
    ∧ ParseTypeNode mapType mapSource =
        ((mapName.Content mapSource).bind fun genericName =>
          (ParseTypeArgs mapArgs.children mapSource).bind fun strArgs =>
            some (genericName ++ "<".toList ++ Join strArgs ", ".toList ++ ">".toList)) :=
  ⟨rfl, rfl, rfl, rfl, mapArgs_eval,
    ParseTypeNode_generic.2.2.1 mapArgs.children mapSource _ mapArgs_eval,
    ParseTypeNode_generic.1 mapType mapName mapArgs mapSource rfl rfl rfl⟩

/-- C13, as amended: on a node with a text whose category the `switch` does not list,
`ParseTypeNode` returns `UNKNOWN: ` followed by the text as `NormalizeContent` leaves it,
and so it does on a `type_annotation` around such a node; the declaration of `tupleSource`,
whose parameter has a tuple type, is produced. -/
theorem ParseTypeNode_unknown :
    (∀ (node : Node) (sourceCode text : GoString),
      node.Type_ ∉ recognizedCategories →
      node.Content sourceCode = some text →
      ParseTypeNode node sourceCode = some ("UNKNOWN: ".toList ++ NormalizeContent text)
      ∧ ∀ annotated : Node, annotated.Type_ = "type_annotation" →
          annotated.Child 1 = some node →
          ParseTypeNode annotated sourceCode
            = some ("UNKNOWN: ".toList ++ NormalizeContent text))
    ∧ (∀ ancestors : List Node, ParseFunctionNode tupleFunction ancestors tupleSource
        = some { Name := "t".toList
                 Type_ := "(UNKNOWN: [number, string]) -> void".toList
                 Position := ⟨0, 0⟩ }) := by
  refine ⟨?_, fun ancestors => ?_⟩
  · intro node sourceCode text hk hc
    have hne : node.Type_ ≠ "type_annotation" := fun h =>
      hk (h ▸ (by decide : "type_annotation" ∈ recognizedCategories))
    refine ⟨ParseTypeNode_default (unwrapAnnotated_of_ne hne) hk hc, ?_⟩
    intro annotated ha h1
    have hu : unwrapAnnotated annotated = some node := by
      unfold unwrapAnnotated
      rw [if_pos ha, h1]
    exact ParseTypeNode_default hu hk hc
  · rw [@ParseFunctionNode_function_eq tupleFunction tupleName tupleParams tupleReturn
      ancestors tupleSource (Or.inl rfl) rfl rfl rfl, tupleParams_eval, tupleReturn_eval]
    rfl

/-- The amended C13 at the tuple type of `tupleSource` and the annotation around it. -/
theorem ParseTypeNode_unknown_witness :
    tupleType.Type_ ∉ recognizedCategories
    ∧ tupleType.Content tupleSource = some "[number,\n  string]".toList
    ∧ tupleAnnotated.Type_ = "type_annotation"
    ∧ tupleAnnotated.Child 1 = some tupleType
    ∧ ParseTypeNode tupleType tupleSource
        = some ("UNKNOWN: ".toList ++ NormalizeContent "[number,\n  string]".toList)
    ∧ ParseTypeNode tupleAnnotated tupleSource
        = some ("UNKNOWN: ".toList ++ NormalizeContent "[number,\n  string]".toList) :=
  ⟨by decide, rfl, rfl, rfl,
    (ParseTypeNode_unknown.1 tupleType tupleSource "[number,\n  string]".toList
      (by decide) rfl).1,
    (ParseTypeNode_unknown.1 tupleType tupleSource "[number,\n  string]".toList
      (by decide) rfl).2 tupleAnnotated rfl rfl⟩

/-- C13 fails on the tuple type of `tupleSource`, whose text runs over two lines: what
follows `UNKNOWN: ` is not the text of the node, it has neither the newline nor the
indentation. -/
theorem ParseTypeNode_unknown_not_literal :
    tupleType.Type_ ∉ recognizedCategories
    ∧ tupleType.Content tupleSource = some "[number,\n  string]".toList
    ∧ ParseTypeNode tupleType tupleSource = some "UNKNOWN: [number, string]".toList
    ∧ "UNKNOWN: [number, string]".toList ≠ "UNKNOWN: ".toList ++ "[number,\n  string]".toList :=
  ⟨by decide, rfl, tupleType_eval, by decide⟩

/-- C14: `ParseParamsNode` returns the strings of the children that are a
`required_parameter` or an `optional_parameter`, one for one and in child order, joined by
`", "`; a child of another category adds nothing and raises no error, so a list with such a
child put in anywhere renders as the list without it, and a list without parameter children
renders as the empty string. -/
theorem ParseParamsNode_parameters :
    (∀ (node : Node) (sourceCode r : GoString),
      ParseParamsNode node sourceCode = some r ↔
        ∃ strParams : List GoString,
          List.Forall₂ (fun child s => ParseParam child sourceCode = some s)
            (node.children.filter isParameter) strParams
          ∧ r = Join strParams ", ".toList)
    ∧ (∀ (node shorter other : Node) (before after : List Node) (sourceCode : GoString),
      isParameter other = false →
      node.children = before ++ other :: after →
      shorter.children = before ++ after →
      ParseParamsNode node sourceCode = ParseParamsNode shorter sourceCode)
    ∧ (∀ (node : Node) (sourceCode : GoString),
      (∀ child ∈ node.children, isParameter child = false) →
      ParseParamsNode node sourceCode = some []) := by
  refine ⟨?_, ?_, ?_⟩
  · intro node sourceCode r
    rw [ParseParamsNode_unfold]
    constructor
    · intro h
      cases hl : ParseParams node.children sourceCode with
      | none => rw [hl] at h; cases h
      | some strParams =>
        rw [hl, Option.map_some'] at h
        exact ⟨strParams, (ParseParams_iff _ _ _).mp hl, (Option.some.inj h).symm⟩
    · rintro ⟨strParams, hl, rfl⟩
      rw [(ParseParams_iff _ _ _).mpr hl, Option.map_some']
  · intro node shorter other before after sourceCode ho hn hs
    rw [ParseParamsNode_unfold, ParseParamsNode_unfold, ParseParams_filter node.children,
      ParseParams_filter shorter.children, hn, hs, List.filter_append, List.filter_append,
      List.filter_cons_of_neg (by simp [ho])]
  · intro node sourceCode h
    have hnil : node.children.filter isParameter = [] := by
      rw [List.filter_eq_nil_iff]
      intro child hc
      simp [h child hc]
    rw [ParseParamsNode_unfold, ParseParams_filter, hnil, ParseParams_nil]
    rfl

/-- C14 at the parameter lists of `rSource` and `zSource`, and at the list of `rSource`
without its opening parenthesis. -/
theorem ParseParamsNode_parameters_witness :
    (∃ strParams : List GoString,
      List.Forall₂ (fun child s => ParseParam child rSource = some s)
        (rParams.children.filter isParameter) strParams
      ∧ "number".toList = Join strParams ", ".toList)
    ∧ (∀ child ∈ zParams.children, isParameter child = false)
    ∧ ParseParamsNode zParams zSource = some []
    ∧ isParameter (.mk "(" false none 10 11 ⟨0, 10⟩ []) = false
    ∧ ParseParamsNode rParams rSource
        = ParseParamsNode
            (.mk "formal_parameters" true (some "parameters") 11 21 ⟨0, 11⟩
              [rParam, .mk ")" false none 20 21 ⟨0, 20⟩ []]) rSource :=
  ⟨(ParseParamsNode_parameters.1 rParams rSource "number".toList).mp rParams_eval,
    by decide,
    ParseParamsNode_parameters.2.2 zParams zSource (by decide),
    rfl,
    ParseParamsNode_parameters.2.1 rParams
      (.mk "formal_parameters" true (some "parameters") 11 21 ⟨0, 11⟩
        [rParam, .mk ")" false none 20 21 ⟨0, 20⟩ []])
      (.mk "(" false none 10 11 ⟨0, 10⟩ []) [] [rParam, .mk ")" false none 20 21 ⟨0, 20⟩ []]
      rSource rfl rfl rfl⟩

/-- C15: on a function or method node without a `name`, a `parameters` or a `return_type`
field, `ParseFunctionNode` aborts: it returns no declaration. -/
theorem ParseFunctionNode_missing_field (node : Node) (ancestors : List Node)
    (sourceCode : GoString)
    (hk : node.Type_ = "function_declaration" ∨ node.Type_ = "function_signature"
      ∨ node.Type_ = "method_definition" ∨ node.Type_ = "method_signature")
    (hm : node.ChildByFieldName "name" = none ∨ node.ChildByFieldName "parameters" = none
      ∨ node.ChildByFieldName "return_type" = none) :
    ParseFunctionNode node ancestors sourceCode = none := by
  unfold ParseFunctionNode
  rcases hk with hk | hk | hk | hk
  · rw [if_pos (Or.inl hk)]
    split
    · rename_i name params returnType hn hp hr
      rcases hm with hm | hm | hm
      · rw [hm] at hn; cases hn
      · rw [hm] at hp; cases hp
      · rw [hm] at hr; cases hr
    · rfl
  · rw [if_pos (Or.inr hk)]
    split
    · rename_i name params returnType hn hp hr
      rcases hm with hm | hm | hm
      · rw [hm] at hn; cases hn
      · rw [hm] at hp; cases hp
      · rw [hm] at hr; cases hr
    · rfl
  · have h1 : ¬ (node.Type_ = "function_declaration" ∨ node.Type_ = "function_signature") := by
      rw [hk]
      decide
    have h2 : ¬ node.Type_ = "variable_declarator" := by
      rw [hk]
      decide
    rw [if_neg h1, if_neg h2, if_pos (Or.inl hk)]
    split
    · rename_i className name params returnType hc hn hp hr
      rcases hm with hm | hm | hm
      · rw [hm] at hn; cases hn
      · rw [hm] at hp; cases hp
      · rw [hm] at hr; cases hr
    · rfl
  · have h1 : ¬ (node.Type_ = "function_declaration" ∨ node.Type_ = "function_signature") := by
      rw [hk]
      decide
    have h2 : ¬ node.Type_ = "variable_declarator" := by
      rw [hk]
      decide
    rw [if_neg h1, if_neg h2, if_pos (Or.inr hk)]
    split
    · rename_i className name params returnType hc hn hp hr
      rcases hm with hm | hm | hm
      · rw [hm] at hn; cases hn
      · rw [hm] at hp; cases hp
      · rw [hm] at hr; cases hr
    · rfl

/-- C15 at the declaration of `vSource`, which declares no return type. -/
theorem ParseFunctionNode_missing_field_witness :
    vNode.Type_ = "function_declaration"
    ∧ vNode.ChildByFieldName "return_type" = none
    ∧ ParseFunctionNode vNode [] vSource = none :=
  ⟨rfl, rfl,
    ParseFunctionNode_missing_field vNode [] vSource (Or.inl rfl) (Or.inr (Or.inr rfl))⟩

/-- C18: for an `optional_parameter` child whose children are the name, the marker `?` and
a type annotation, `ParseParamsNode` adds the rendering of that third child, which is what
it adds for a `required_parameter` whose `type` field is that annotation; the parameter
lists of `function o(x?: number)` and `function r(x: number)` both render as `number`. -/
theorem ParseParams_optional_third_child :
    (∀ (optional nameToken marker annotated : Node) (rest : List Node)
        (sourceCode : GoString),
      optional.Type_ = "optional_parameter" →
      optional.children = [nameToken, marker, annotated] →
      ParseParams (optional :: rest) sourceCode =
        (ParseTypeNode annotated sourceCode).bind fun strParam =>
        (ParseParams rest sourceCode).bind fun strParams => some (strParam :: strParams))
    ∧ (∀ (required annotated : Node) (rest : List Node) (sourceCode : GoString),
      required.Type_ = "required_parameter" →
      required.ChildByFieldName "type" = some annotated →
      ParseParams (required :: rest) sourceCode =
        (ParseTypeNode annotated sourceCode).bind fun strParam =>
        (ParseParams rest sourceCode).bind fun strParams => some (strParam :: strParams))
    ∧ ParseParamsNode oParams oSource = some "number".toList
    ∧ ParseParamsNode rParams rSource = some "number".toList := by
  refine ⟨?_, ?_, oParams_eval, rParams_eval⟩
  · intro optional nameToken marker annotated rest sourceCode hk hc
    have hn : ¬ optional.Type_ = "required_parameter" := by
      rw [hk]
      decide
    have h2 : optional.Child 2 = some annotated := by
      unfold Node.Child
      rw [hc]
      rfl
    rw [ParseParams_cons, if_neg hn, if_pos hk, h2, Option.some_bind]
  · intro required annotated rest sourceCode hk ht
    rw [ParseParams_cons, if_pos hk, ht, Option.some_bind]

/-- C18 at the parameters of `oSource` and `rSource`. -/
theorem ParseParams_optional_third_child_witness :
    oParam.Type_ = "optional_parameter"
    ∧ oParam.children.map Node.Type_ = ["identifier", "?", "type_annotation"]
    ∧ oParam.Child 2 = some oAnnotated
    ∧ ParseParams [oParam] oSource =
        ((ParseTypeNode oAnnotated oSource).bind fun strParam =>
          (ParseParams [] oSource).bind fun strParams => some (strParam :: strParams))
    ∧ rParam.Type_ = "required_parameter"
    ∧ rParam.ChildByFieldName "type" = some rAnnotated
    ∧ ParseParams [rParam] rSource =
        ((ParseTypeNode rAnnotated rSource).bind fun strParam =>
          (ParseParams [] rSource).bind fun strParams => some (strParam :: strParams)) :=
  ⟨rfl, rfl, rfl,
    ParseParams_optional_third_child.1 oParam _ _ oAnnotated [] oSource rfl rfl,
    rfl, rfl,
    ParseParams_optional_third_child.2.1 rParam rAnnotated [] rSource rfl rfl⟩

/-- C19: the wrappers are transparent: a `type_annotation` whose second child is a type
node `T` renders as `T`, and a `readonly_type` whose first named child is `T` renders as
`T`.  In `wSource` the annotation, the `readonly` type within it and the array type within
that all render as `string[]`. -/
theorem ParseTypeNode_wrappers :
    (∀ (wrapper inner : Node) (sourceCode : GoString),
      wrapper.Type_ = "type_annotation" →
      wrapper.Child 1 = some inner →
      inner.Type_ ≠ "type_annotation" →
      ParseTypeNode wrapper sourceCode = ParseTypeNode inner sourceCode)
    ∧ (∀ (wrapper inner : Node) (sourceCode : GoString),
      wrapper.Type_ = "readonly_type" →
      wrapper.NamedChild 0 = some inner →
      ParseTypeNode wrapper sourceCode = ParseTypeNode inner sourceCode)
    ∧ ParseTypeNode wAnnotated wSource = some "string[]".toList
    ∧ ParseTypeNode wReadonly wSource = some "string[]".toList
    ∧ ParseTypeNode wArray wSource = some "string[]".toList := by
  refine ⟨?_, ?_, wAnnotated_eval, wReadonly_eval, wArray_eval⟩
  · intro wrapper inner sourceCode hk hc hne
    have hu : unwrapAnnotated wrapper = some inner := by
      unfold unwrapAnnotated
      rw [if_pos hk, hc]
    rw [ParseTypeNode_unfold wrapper, ParseTypeNode_unfold inner, hu,
      unwrapAnnotated_of_ne hne]
  · intro wrapper inner sourceCode hk hc
    have hne : wrapper.Type_ ≠ "type_annotation" := by
      rw [hk]
      decide
    exact ParseTypeNode_readonly (unwrapAnnotated_of_ne hne) hk hc rfl

/-- C19 at the annotation and the `readonly` type of `wSource`. -/
theorem ParseTypeNode_wrappers_witness :
    (wAnnotated.Type_ = "type_annotation" ∧ wAnnotated.Child 1 = some wReadonly
      ∧ wReadonly.Type_ ≠ "type_annotation"
      ∧ ParseTypeNode wAnnotated wSource = ParseTypeNode wReadonly wSource)
    ∧ (wReadonly.Type_ = "readonly_type" ∧ wReadonly.NamedChild 0 = some wArray
      ∧ ParseTypeNode wReadonly wSource = ParseTypeNode wArray wSource) :=
  ⟨⟨rfl, rfl, by decide,
      ParseTypeNode_wrappers.1 wAnnotated wReadonly wSource rfl rfl (by decide)⟩,
    ⟨rfl, rfl, ParseTypeNode_wrappers.2.1 wReadonly wArray wSource rfl rfl⟩⟩

/-! ## The library distance is the least number of edits -/

theorem levenshtein_nil_left (b : GoString) :
    levenshtein.ComputeDistance [] b = b.length := by
  rw [levenshtein.ComputeDistance]

theorem levenshtein_nil_right (a : GoString) :
    levenshtein.ComputeDistance a [] = a.length := by
  cases a with
  | nil => rw [levenshtein.ComputeDistance]
  | cons x a =>
    rw [levenshtein.ComputeDistance]
    simp

/-- The least of three integers is below each of them and is one of them. -/
theorem min_of_three (p q r : Int) :
    min (min p q) r ≤ p ∧ min (min p q) r ≤ q ∧ min (min p q) r ≤ r
      ∧ (min (min p q) r = p ∨ min (min p q) r = q ∨ min (min p q) r = r) := by
  refine ⟨(min_le_left _ _).trans (min_le_left _ _), (min_le_left _ _).trans (min_le_right _ _),
    min_le_right _ _, ?_⟩
  rcases min_choice (min p q) r with h | h
  · rcases min_choice p q with h' | h'
    · exact Or.inl (h.trans h')
    · exact Or.inr (Or.inl (h.trans h'))
  · exact Or.inr (Or.inr h)

/-- The recurrence of the distance, with the least of the three neighbours named. -/
theorem levenshtein_cons_cons (x y : Char) (a b : GoString) :
    (x = y ∧ levenshtein.ComputeDistance (x :: a) (y :: b) = levenshtein.ComputeDistance a b)
    ∨ (x ≠ y ∧ ∃ m : Int, levenshtein.ComputeDistance (x :: a) (y :: b) = 1 + m
        ∧ m ≤ levenshtein.ComputeDistance a b
        ∧ m ≤ levenshtein.ComputeDistance a (y :: b)
        ∧ m ≤ levenshtein.ComputeDistance (x :: a) b
        ∧ (m = levenshtein.ComputeDistance a b ∨ m = levenshtein.ComputeDistance a (y :: b)
          ∨ m = levenshtein.ComputeDistance (x :: a) b)) := by
  rw [levenshtein.ComputeDistance]
  by_cases h : x = y
  · exact Or.inl ⟨h, if_pos h⟩
  · refine Or.inr ⟨h, _, if_neg h, ?_⟩
    exact min_of_three _ _ _

/-- Dropping the first character of either string changes the distance by at most one. -/
theorem levenshtein_step (k : Nat) : ∀ a b : GoString, a.length + b.length ≤ k →
    (∀ x : Char, levenshtein.ComputeDistance (x :: a) b ≤ levenshtein.ComputeDistance a b + 1)
    ∧ (∀ x : Char,
        levenshtein.ComputeDistance a b ≤ levenshtein.ComputeDistance (x :: a) b + 1)
    ∧ (∀ y : Char,
        levenshtein.ComputeDistance a (y :: b) ≤ levenshtein.ComputeDistance a b + 1)
    ∧ (∀ y : Char,
        levenshtein.ComputeDistance a b ≤ levenshtein.ComputeDistance a (y :: b) + 1) := by
  induction k with
  | zero =>
    intro a b h
    have ha : a = [] := List.length_eq_zero.mp (by omega)
    have hb : b = [] := List.length_eq_zero.mp (by omega)
    subst ha hb
    refine ⟨fun x => ?_, fun x => ?_, fun y => ?_, fun y => ?_⟩ <;>
      simp [levenshtein_nil_left, levenshtein_nil_right]
  | succ k ih =>
    intro a b h
    cases a with
    | nil =>
      cases b with
      | nil =>
        refine ⟨fun x => ?_, fun x => ?_, fun y => ?_, fun y => ?_⟩ <;>
          simp [levenshtein_nil_left, levenshtein_nil_right]
      | cons y' b =>
        have hb := ih [] b (by simp only [List.length_cons, List.length_nil] at h ⊢; omega)
        refine ⟨fun x => ?_, fun x => ?_, fun y => ?_, fun y => ?_⟩
        · rcases levenshtein_cons_cons x y' [] b with ⟨_, h1⟩ | ⟨_, m, h1, _, h3, _, _⟩
          · rw [h1]
            simp only [levenshtein_nil_left, List.length_cons]
            push_cast
            omega
          · rw [h1]
            simp only [levenshtein_nil_left, List.length_cons] at h3 ⊢
            push_cast at h3 ⊢
            omega
        · have h5 := hb.2.1 x
          rcases levenshtein_cons_cons x y' [] b with ⟨_, h1⟩ | ⟨_, m, h1, _, _, _, h4⟩
          · rw [h1]
            simp only [levenshtein_nil_left, List.length_cons]
            push_cast
            omega
          · rw [h1]
            simp only [levenshtein_nil_left, List.length_cons] at h4 h5 ⊢
            push_cast at h4 h5 ⊢
            omega
        · simp only [levenshtein_nil_left, List.length_cons]
          push_cast
          omega
        · simp only [levenshtein_nil_left, List.length_cons]
          push_cast
          omega
    | cons x' a =>
      cases b with
      | nil =>
        have ha := ih a [] (by simp only [List.length_cons, List.length_nil] at h ⊢; omega)
        refine ⟨fun x => ?_, fun x => ?_, fun y => ?_, fun y => ?_⟩
        · simp only [levenshtein_nil_right, List.length_cons]
          push_cast
          omega
        · simp only [levenshtein_nil_right, List.length_cons]
          push_cast
          omega
        · rcases levenshtein_cons_cons x' y a [] with ⟨_, h1⟩ | ⟨_, m, h1, _, _, h3, _⟩
          · rw [h1]
            simp only [levenshtein_nil_right, List.length_cons]
            push_cast
            omega
          · rw [h1]
            simp only [levenshtein_nil_right, List.length_cons] at h3 ⊢
            push_cast at h3 ⊢
            omega
        · have h5 := ha.2.2.2 y
          rcases levenshtein_cons_cons x' y a [] with ⟨_, h1⟩ | ⟨_, m, h1, _, _, _, h4⟩
          · rw [h1]
            simp only [levenshtein_nil_right, List.length_cons]
            push_cast
            omega
          · rw [h1]
            simp only [levenshtein_nil_right, List.length_cons] at h4 h5 ⊢
            push_cast at h4 h5 ⊢
            omega
      | cons y' b =>
        have iab' := ih a (y' :: b) (by simp only [List.length_cons] at h ⊢; omega)
        have ia'b := ih (x' :: a) b (by simp only [List.length_cons] at h ⊢; omega)
        refine ⟨fun x => ?_, fun x => ?_, fun y => ?_, fun y => ?_⟩
        · have h5 := ia'b.2.2.2 y'
          rcases levenshtein_cons_cons x y' (x' :: a) b with
            ⟨_, h1⟩ | ⟨_, m, h1, _, h3, _, _⟩
          · omega
          · omega
        · have h5 := ia'b.2.2.1 y'
          have h6 := ia'b.2.1 x
          rcases levenshtein_cons_cons x y' (x' :: a) b with ⟨_, h1⟩ | ⟨_, m, h1, _, _, _, h4⟩
          · omega
          · omega
        · have h5 := iab'.2.1 x'
          rcases levenshtein_cons_cons x' y a (y' :: b) with ⟨_, h1⟩ | ⟨_, m, h1, _, _, h3, _⟩
          · omega
          · omega
        · have h5 := iab'.1 x'
          have h6 := iab'.2.2.2 y
          rcases levenshtein_cons_cons x' y a (y' :: b) with ⟨_, h1⟩ | ⟨_, m, h1, _, _, _, h4⟩
          · omega
          · omega


theorem EditScript_of_nil (b : GoString) : EditScript [] b b.length := by
  induction b with
  | nil => exact EditScript.done
  | cons y b ih => exact EditScript.add y ih

theorem EditScript_to_nil (a : GoString) : EditScript a [] a.length := by
  induction a with
  | nil => exact EditScript.done
  | cons x a ih => exact EditScript.delete x ih

/-- No edit script makes fewer edits than the distance. -/
theorem levenshtein_le_of_script {a b : GoString} {n : Nat} (h : EditScript a b n) :
    levenshtein.ComputeDistance a b ≤ n := by
  induction h with
  | done => simp [levenshtein_nil_left]
  | keep x hs ih =>
    rename_i a b n
    rcases levenshtein_cons_cons x x a b with ⟨_, h1⟩ | ⟨hne, _⟩
    · omega
    · exact absurd rfl hne
  | substitute x y hs ih =>
    rename_i a b n
    rcases levenshtein_cons_cons x y a b with ⟨_, h1⟩ | ⟨_, m, h1, h2, _, _, _⟩
    · push_cast
      omega
    · push_cast
      omega
  | delete x hs ih =>
    rename_i a b n
    have h1 := (levenshtein_step _ a b (Nat.le_refl _)).1 x
    push_cast
    omega
  | add y hs ih =>
    rename_i a b n
    have h1 := (levenshtein_step _ a b (Nat.le_refl _)).2.2.1 y
    push_cast
    omega

/-- Some edit script makes exactly as many edits as the distance. -/
theorem levenshtein_script (a b : GoString) :
    ∃ n : Nat, levenshtein.ComputeDistance a b = n ∧ EditScript a b n := by
  induction a, b using levenshtein.ComputeDistance.induct with
  | case1 b => exact ⟨b.length, levenshtein_nil_left b, EditScript_of_nil b⟩
  | case2 a _ => exact ⟨a.length, levenshtein_nil_right a, EditScript_to_nil a⟩
  | case3 a x b ih =>
    obtain ⟨n, hn, hs⟩ := ih
    refine ⟨n, ?_, EditScript.keep x hs⟩
    rcases levenshtein_cons_cons x x a b with ⟨_, h1⟩ | ⟨hne, _⟩
    · rw [h1, hn]
    · exact absurd rfl hne
  | case4 x a y b hxy ih1 ih2 ih3 =>
    obtain ⟨n1, hn1, hs1⟩ := ih1
    obtain ⟨n2, hn2, hs2⟩ := ih2
    obtain ⟨n3, hn3, hs3⟩ := ih3
    rcases levenshtein_cons_cons x y a b with ⟨he, _⟩ | ⟨_, m, h1, _, _, _, h4⟩
    · exact absurd he hxy
    · rcases h4 with h4 | h4 | h4
      · exact ⟨n1 + 1, by rw [h1, h4, hn1]; push_cast; omega, EditScript.substitute x y hs1⟩
      · exact ⟨n2 + 1, by rw [h1, h4, hn2]; push_cast; omega, EditScript.delete x hs2⟩
      · exact ⟨n3 + 1, by rw [h1, h4, hn3]; push_cast; omega, EditScript.add y hs3⟩

end Tsoogle
